import Mathlib

set_option linter.unusedVariables false
set_option maxRecDepth 10000

namespace Jailhouse

/-! Shallow embedding of the Jailhouse control core (src/hypervisor/control.c).
Machine words (unsigned long, u32, u64) are modelled as Nat; every C
subtraction that matters is guarded in the source by a comparison that makes
it non-truncating, and this is re-established in the proofs. -/

/-- Modelled from the spec: stable numeric error code PERM (the header with
the errno values is not under src/). -/
def EPERM : Int := 1

/-- Modelled from the spec: stable numeric error code NOENT. -/
def ENOENT : Int := 2

/-- Modelled from the spec: stable numeric error code E2BIG. -/
def E2BIG : Int := 7

/-- Modelled from the spec: stable numeric error code NOMEM. -/
def ENOMEM : Int := 12

/-- Modelled from the spec: stable numeric error code BUSY. -/
def EBUSY : Int := 16

/-- Modelled from the spec: stable numeric error code EXIST. -/
def EEXIST : Int := 17

/-- Modelled from the spec: stable numeric error code INVAL. -/
def EINVAL : Int := 22

/-- Modelled from the spec: stable numeric error code NOSYS. -/
def ENOSYS : Int := 38

/-- Modelled from the spec: the page size; all region addresses and sizes are
page-aligned. -/
def PAGE_SIZE : Nat := 4096

/-- Modelled from the spec: cell state RUNNING (communication page field). -/
def JAILHOUSE_CELL_RUNNING : Nat := 0

/-- Modelled from the spec: cell state RUNNING_LOCKED. -/
def JAILHOUSE_CELL_RUNNING_LOCKED : Nat := 1

/-- Modelled from the spec: cell state SHUT_DOWN. -/
def JAILHOUSE_CELL_SHUT_DOWN : Nat := 2

/-- Modelled from the spec: cell state FAILED. -/
def JAILHOUSE_CELL_FAILED : Nat := 3

/-- Modelled from the spec: message code NONE is zero. -/
def JAILHOUSE_MSG_NONE : Nat := 0

/-- Modelled from the spec: reply code REQUEST_APPROVED (distinct from NONE). -/
def JAILHOUSE_MSG_REQUEST_APPROVED : Nat := 2

/-- Modelled from the spec: reply code MSG_RECEIVED (distinct from NONE). -/
def JAILHOUSE_MSG_RECEIVED : Nat := 3

/-- Modelled from the spec: cell configuration flag PASSIVE_COMMREG. -/
def JAILHOUSE_CELL_PASSIVE_COMMREG : Nat := 1

/-- Modelled from the spec: memory region flag COMM_REGION. -/
def JAILHOUSE_MEM_COMM_REGION : Nat := 16

/-- Modelled from the spec: memory region flag LOADABLE. -/
def JAILHOUSE_MEM_LOADABLE : Nat := 32

/-- Modelled from the spec: mask of the recognized memory region flags. -/
def JAILHOUSE_MEM_VALID_FLAGS : Nat := 63

/-- Modelled from the spec: CPU info query type for the state of a CPU. -/
def JAILHOUSE_CPU_INFO_STATE : Nat := 0

/-- Modelled from the spec: base of the statistics CPU info query types. -/
def JAILHOUSE_CPU_INFO_STAT_BASE : Nat := 1000

/-- Modelled from the spec: CPU state answer RUNNING. -/
def JAILHOUSE_CPU_RUNNING : Int := 0

/-- Modelled from the spec: CPU state answer FAILED. -/
def JAILHOUSE_CPU_FAILED : Int := 2

/-- Modelled from the spec: byte size of the inline (small) cpu set bitmap
buffer embedded in a cell. -/
def SMALL_CPU_SET_BITMAP_BYTES : Nat := 8

/-- Memory region descriptor (struct jailhouse_memory): physical start,
virtual start, size and flags. -/
structure MemRegion where
  phys_start : Nat
  virt_start : Nat
  size : Nat
  flags : Nat
deriving DecidableEq, Repr, Inhabited

/-- Embeds address_in_region, control.c lines 199-204. -/
def address_in_region (addr : Nat) (region : MemRegion) : Bool :=
  decide (addr ≥ region.phys_start ∧ addr < region.phys_start + region.size)

/-- Embeds one iteration of the loop body of remap_to_root_cell, control.c
lines 230-247: the overlap descriptor computed for the region pair, or none
when neither start address falls into the other region. -/
def remap_overlap (mem root_mem : MemRegion) : Option MemRegion :=
  if address_in_region mem.phys_start root_mem then
    let ps := mem.phys_start
    let sz0 := root_mem.size - (ps - root_mem.phys_start)
    let sz := if sz0 > mem.size then mem.size else sz0
    some { phys_start := ps,
           virt_start := root_mem.virt_start + ps - root_mem.phys_start,
           size := sz,
           flags := root_mem.flags }
  else if address_in_region root_mem.phys_start mem then
    let ps := root_mem.phys_start
    let sz0 := mem.size - (ps - mem.phys_start)
    let sz := if sz0 > root_mem.size then root_mem.size else sz0
    some { phys_start := ps,
           virt_start := root_mem.virt_start + ps - root_mem.phys_start,
           size := sz,
           flags := root_mem.flags }
  else none

/-- Failure mode of remap_to_root_cell, control.c line 24. -/
inductive failure_mode where
  | ABORT_ON_ERROR
  | WARN_ON_ERROR
deriving DecidableEq, Repr

/-- Loop of remap_to_root_cell, control.c lines 228-256.  mapErr is the oracle
for the result of arch_map_memory_region on each installed descriptor.  The
accumulator err mirrors the local variable err: it is overwritten by every
arch_map_memory_region call and returned at the end.  The returned list holds
the descriptors that were passed to arch_map_memory_region, in order. -/
def remap_loop (mem : MemRegion) (mapErr : MemRegion → Int) (mode : failure_mode) :
    List MemRegion → Int → Int × List MemRegion
  | [], err => (err, [])
  | r :: rest, err =>
    match remap_overlap mem r with
    | none => remap_loop mem mapErr mode rest err
    | some ov =>
      let e := mapErr ov
      if e ≠ 0 ∧ mode = failure_mode.ABORT_ON_ERROR then (e, [ov])
      else
        let res := remap_loop mem mapErr mode rest e
        (res.1, ov :: res.2)

/-- Embeds remap_to_root_cell, control.c lines 219-258: returns the error
result and the list of overlap descriptors installed into the root cell. -/
def remap_to_root_cell (mem : MemRegion) (root_mems : List MemRegion)
    (mapErr : MemRegion → Int) (mode : failure_mode) : Int × List MemRegion :=
  remap_loop mem mapErr mode root_mems 0

/-- Embeds unmap_from_root_cell, control.c lines 206-217: the temporary
descriptor has its virtual address forced to the physical address. -/
def unmap_from_root_tmp (mem : MemRegion) : MemRegion :=
  { mem with virt_start := mem.phys_start }

/-- Embeds the retry loop of get_free_cell_id, control.c lines 131-144.  A
full rescan of the cell list after bumping id is equivalent to a membership
test of id in the list of live ids; the fuel bounds the number of bumps. -/
def get_free_cell_id_loop (ids : List Nat) : Nat → Nat → Nat
  | 0, id => id
  | fuel + 1, id =>
    if id ∈ ids then get_free_cell_id_loop ids fuel (id + 1) else id

/-- Embeds get_free_cell_id, control.c lines 131-144, over the list of ids of
the cells currently in the cell list. -/
def get_free_cell_id (ids : List Nat) : Nat :=
  get_free_cell_id_loop ids (ids.length + 1) 0

/-- CPU set: a bitmap keyed by CPU id together with max_cpu_id
(struct cpu_set). -/
structure cpu_set where
  max_cpu_id : Nat
  bitmap : Nat → Bool

/-- The do/while loop of next_cpu, control.c lines 38-41.  The exception is an
int in the source (it can be -1), hence Int here.  The fuel only bounds the
recursion; next_cpu passes enough fuel that the zero case is reached only
when the loop condition is already false, where it returns the same value. -/
def next_cpu_loop (s : cpu_set) (exc : Int) : Nat → Nat → Nat
  | 0, cpu => cpu + 1
  | fuel + 1, cpu =>
    if cpu + 1 ≤ s.max_cpu_id ∧ (((cpu + 1 : Nat) : Int) = exc ∨ s.bitmap (cpu + 1) = false)
    then next_cpu_loop s exc fuel (cpu + 1)
    else cpu + 1

/-- Embeds next_cpu, control.c lines 36-43. -/
def next_cpu (cpu : Nat) (s : cpu_set) (exc : Int) : Nat :=
  next_cpu_loop s exc (s.max_cpu_id + 1) cpu

/-- Message type, control.c line 23. -/
inductive msg_type where
  | MSG_REQUEST
  | MSG_INFORMATION
deriving DecidableEq, Repr

/-- One observation of the communication page made by an iteration of the poll
loop in cell_send_message: the reply_from_cell and cell_state fields. -/
structure CommObservation where
  reply : Nat
  cell_state : Nat
deriving DecidableEq, Repr

/-- Embeds one iteration of the poll loop of cell_send_message, control.c
lines 89-107: some decision, or none when the loop keeps polling. -/
def msg_poll_step (ty : msg_type) (o : CommObservation) : Option Bool :=
  if o.cell_state = JAILHOUSE_CELL_SHUT_DOWN ∨ o.cell_state = JAILHOUSE_CELL_FAILED then
    some true
  else if (ty = msg_type.MSG_REQUEST ∧ o.reply = JAILHOUSE_MSG_REQUEST_APPROVED) ∨
          (ty = msg_type.MSG_INFORMATION ∧ o.reply = JAILHOUSE_MSG_RECEIVED) then
    some true
  else if o.reply ≠ JAILHOUSE_MSG_NONE then
    some false
  else
    none

/-- The poll loop of cell_send_message over a finite trace of observations of
the communication page; none means the loop was still polling when the trace
ran out. -/
def msg_poll_loop (ty : msg_type) : List CommObservation → Option Bool
  | [] => none
  | o :: rest =>
    match msg_poll_step ty o with
    | some b => some b
    | none => msg_poll_loop ty rest

/-- Embeds cell_send_message, control.c lines 81-108.  cfg_flags are the flags
of the cell configuration; the first component records whether the message was
written to the communication page (jailhouse_send_msg_to_cell). -/
def cell_send_message (cfg_flags : Nat) (ty : msg_type)
    (obss : List CommObservation) : Bool × Option Bool :=
  if cfg_flags &&& JAILHOUSE_CELL_PASSIVE_COMMREG ≠ 0 then (false, some true)
  else (true, msg_poll_loop ty obss)

/-- A cell (struct cell) as far as the control core reads and writes it:
stable id, configuration name, the guest visible communication page fields
cell_state and msg_to_cell, the loadable flag, the configuration flags, the
cpu set (list of set bits of the bitmap, in ascending bit order, as iterated
by for_each_cpu), the configured memory regions and the page count backing
the cell structure.  shutdown_ok is the oracle for the outcome of the
shutdown handshake (cell_shutdown_ok), which depends on guest replies. -/
structure Cell where
  id : Nat
  name : Nat
  cell_state : Nat
  msg_to_cell : Nat
  loadable : Bool
  shutdown_ok : Bool
  cfg_flags : Nat
  cpu_set_size : Nat
  cpus : List Nat
  mems : List MemRegion
  data_pages : Nat
deriving DecidableEq, Repr, Inhabited

/-- Calls into the architecture interface and the page pool made by the
control core, recorded as an observable trace.  Cell 0 tags the root cell;
other tags are positions in the cell list. -/
inductive Event where
  | suspend (cpu : Nat)
  | resume (cpu : Nat)
  | park (cpu : Nat)
  | reset (cpu : Nat)
  | mapRegion (cell : Nat) (r : MemRegion)
  | unmapRegion (cell : Nat) (r : MemRegion)
  | commit
  | freePages (pages : Nat)
deriving DecidableEq, Repr

/-- The hypervisor state touched by the lifecycle operations: the cell list
(head is the root cell), the per-CPU failed flags, the per-CPU cell owner
(as a cell list position), the per-CPU statistics counters, and num_cells. -/
structure HvState where
  cells : List Cell
  percpu_failed : Nat → Bool
  percpu_cell : Nat → Nat
  percpu_stats : Nat → List Nat
  num_cells : Nat

/-- Embeds cell_suspend, control.c lines 54-60: arch_suspend_cpu on every CPU
of the cell except the calling one. -/
def suspend_events (c : Cell) (self : Nat) : List Event :=
  (c.cpus.filter (fun cpu => cpu != self)).map Event.suspend

/-- Embeds cell_resume, control.c lines 62-68: arch_resume_cpu on every CPU of
the callers cell except the calling one. -/
def resume_events (c : Cell) (self : Nat) : List Event :=
  (c.cpus.filter (fun cpu => cpu != self)).map Event.resume

/-- The scan of for_each_cell in cell_management_prologue, control.c lines
456-458: position of the first cell whose id matches. -/
def find_cell_loop (id : Nat) : List Cell → Nat → Option Nat
  | [], _ => none
  | c :: rest, i => if c.id = id then some i else find_cell_loop id rest (i + 1)

/-- Position in the cell list of the first cell carrying the given id. -/
def find_cell_index (cells : List Cell) (id : Nat) : Option Nat :=
  find_cell_loop id cells 0

/-- Embeds cell_reconfig_ok, control.c lines 110-120: the loop walks all
cells, skips the root (position 0) and the excluded cell, and fails on
RUNNING_LOCKED. -/
def cell_reconfig_ok_loop (excluded : Option Nat) : List Cell → Nat → Bool
  | [], _ => true
  | c :: rest, i =>
    if i ≠ 0 ∧ excluded ≠ some i ∧ c.cell_state = JAILHOUSE_CELL_RUNNING_LOCKED then false
    else cell_reconfig_ok_loop excluded rest (i + 1)

/-- Embeds cell_reconfig_ok, control.c lines 110-120. -/
def cell_reconfig_ok (cells : List Cell) (excluded : Option Nat) : Bool :=
  cell_reconfig_ok_loop excluded cells 0

/-- Embeds cell_shutdown_ok, control.c lines 440-444: the outcome of
cell_send_message with the shutdown request, abstracted by the per-cell
handshake oracle. -/
def cell_shutdown_ok (c : Cell) : Bool := c.shutdown_ok

/-- Management task selector, control.c line 25. -/
inductive management_task where
  | CELL_START
  | CELL_SET_LOADABLE
  | CELL_DESTROY
deriving DecidableEq, Repr

/-- Embeds cell_management_prologue, control.c lines 446-480.  Returns the
error, the position of the found target cell (some i exactly on success) and
the trace of suspend/resume calls it made.  self is the calling CPU id,
callerRoot states whether the calling CPU runs in the root cell. -/
def cell_management_prologue (task : management_task) (st : HvState) (self : Nat)
    (callerRoot : Bool) (id : Nat) : Int × Option Nat × List Event :=
  if callerRoot = false then (-EPERM, none, [])
  else
    let root := st.cells.headD default
    let sus := suspend_events root self
    match find_cell_index st.cells id with
    | none => (-ENOENT, none, sus ++ resume_events root self)
    | some i =>
      if i = 0 then (-EINVAL, none, sus ++ resume_events root self)
      else
        let target := (st.cells[i]?).getD default
        if (task = management_task.CELL_DESTROY ∧ cell_reconfig_ok st.cells (some i) = false)
            ∨ cell_shutdown_ok target = false then
          (-EPERM, none, sus ++ resume_events root self)
        else
          (0, some i, sus ++ suspend_events target self)

/-- The per-CPU failed flags after the loops that clear failed for a list of
CPUs (cell_set_loadable line 537, cell_start line 513, cell_destroy_internal
line 271). -/
def clear_failed_list (f : Nat → Bool) : List Nat → Nat → Bool
  | [], x => f x
  | c :: rest, x => clear_failed_list (fun y => if y = c then false else f y) rest x

/-- The remap loop of cell_set_loadable, control.c lines 548-554: every
region with the LOADABLE flag is remapped to the root cell with
ABORT_ON_ERROR; the first error stops the loop. -/
def set_loadable_remap_loop (root_mems : List MemRegion) (mapErr : MemRegion → Int) :
    List MemRegion → Int × List Event
  | [] => (0, [])
  | m :: rest =>
    if m.flags &&& JAILHOUSE_MEM_LOADABLE ≠ 0 then
      let res := remap_to_root_cell m root_mems mapErr failure_mode.ABORT_ON_ERROR
      let evs := res.2.map (Event.mapRegion 0)
      if res.1 ≠ 0 then (res.1, evs)
      else
        let rest' := set_loadable_remap_loop root_mems mapErr rest
        (rest'.1, evs ++ rest'.2)
    else set_loadable_remap_loop root_mems mapErr rest

/-- Embeds cell_set_loadable, control.c lines 525-564.  mapErr is the oracle
for arch_map_memory_region results during remapping.  Returns the hypercall
result, the trace of architecture calls and the new state. -/
def cell_set_loadable (st : HvState) (self : Nat) (callerRoot : Bool) (id : Nat)
    (mapErr : MemRegion → Int) : Int × List Event × HvState :=
  let pro := cell_management_prologue management_task.CELL_SET_LOADABLE st self callerRoot id
  match pro.2.1 with
  | none => (pro.1, pro.2.2, st)
  | some i =>
    let root := st.cells.headD default
    let cell := (st.cells[i]?).getD default
    let parks := cell.cpus.map Event.park
    let st1 := { st with percpu_failed := clear_failed_list st.percpu_failed cell.cpus }
    if cell.loadable then
      (0, pro.2.2 ++ parks ++ resume_events root self, st1)
    else
      let cell' := { cell with cell_state := JAILHOUSE_CELL_SHUT_DOWN, loadable := true }
      let st2 := { st1 with cells := st1.cells.set i cell' }
      let lres := set_loadable_remap_loop root.mems mapErr cell.mems
      if lres.1 ≠ 0 then
        (lres.1, pro.2.2 ++ parks ++ lres.2 ++ resume_events root self, st2)
      else
        (0, pro.2.2 ++ parks ++ lres.2 ++ [Event.commit] ++ resume_events root self, st2)

/-- The unmap loop of cell_start, control.c lines 495-501: every region with
the LOADABLE flag is unmapped from the root cell; the first error stops the
loop.  unmapErr is the oracle for arch_unmap_memory_region results. -/
def start_unmap_loop (unmapErr : MemRegion → Int) : List MemRegion → Int × List Event
  | [] => (0, [])
  | m :: rest =>
    if m.flags &&& JAILHOUSE_MEM_LOADABLE ≠ 0 then
      let tmp := unmap_from_root_tmp m
      if unmapErr tmp ≠ 0 then (unmapErr tmp, [Event.unmapRegion 0 tmp])
      else
        let rest' := start_unmap_loop unmapErr rest
        (rest'.1, Event.unmapRegion 0 tmp :: rest'.2)
    else start_unmap_loop unmapErr rest

/-- Embeds cell_start, control.c lines 482-523. -/
def cell_start (st : HvState) (self : Nat) (callerRoot : Bool) (id : Nat)
    (unmapErr : MemRegion → Int) : Int × List Event × HvState :=
  let pro := cell_management_prologue management_task.CELL_START st self callerRoot id
  match pro.2.1 with
  | none => (pro.1, pro.2.2, st)
  | some i =>
    let root := st.cells.headD default
    let cell := (st.cells[i]?).getD default
    let ures := if cell.loadable then start_unmap_loop unmapErr cell.mems else (0, [])
    if ures.1 ≠ 0 then
      (ures.1, pro.2.2 ++ ures.2 ++ resume_events root self, st)
    else
      let commitEvs := if cell.loadable then [Event.commit] else []
      let cell' := { cell with loadable := false,
                               cell_state := JAILHOUSE_CELL_RUNNING,
                               msg_to_cell := JAILHOUSE_MSG_NONE }
      let st1 := { st with cells := st.cells.set i cell',
                           percpu_failed := clear_failed_list st.percpu_failed cell.cpus }
      let resets := cell.cpus.map Event.reset
      (0, pro.2.2 ++ ures.2 ++ commitEvs ++ resets ++ resume_events root self, st1)

/-- Insertion of a CPU into the ascending list of set bits of a bitmap
(set_bit on a cpu set). -/
def insertSorted (cpu : Nat) : List Nat → List Nat
  | [] => [cpu]
  | x :: xs =>
    if cpu < x then cpu :: x :: xs
    else if cpu = x then x :: xs
    else x :: insertSorted cpu xs

/-- The per-CPU loop of cell_destroy_internal, control.c lines 266-273: each
CPU of the dying cell is given back to the root bitmap, its per-CPU record is
pointed at the root cell, failed is cleared and the counters are zeroed. -/
def destroy_cpu_updates (st : HvState) : List Nat → HvState
  | [] => st
  | c :: rest =>
    let cells' :=
      match st.cells with
      | [] => []
      | root :: others => { root with cpus := insertSorted c root.cpus } :: others
    destroy_cpu_updates
      { st with
        cells := cells',
        percpu_failed := fun x => if x = c then false else st.percpu_failed x,
        percpu_cell := fun x => if x = c then 0 else st.percpu_cell x,
        percpu_stats := fun x => if x = c then (st.percpu_stats x).map (fun _ => 0)
                                 else st.percpu_stats x } rest

/-- The region loop of cell_destroy_internal, control.c lines 275-283: each
region is unmapped from the dying cell and, unless it is a COMM_REGION,
remapped to the root cell with WARN_ON_ERROR (errors only logged). -/
def destroy_region_loop (root_mems : List MemRegion) (mapErr : MemRegion → Int)
    (cellTag : Nat) : List MemRegion → List Event
  | [] => []
  | m :: rest =>
    let remapEvs :=
      if m.flags &&& JAILHOUSE_MEM_COMM_REGION = 0 then
        ((remap_to_root_cell m root_mems mapErr failure_mode.WARN_ON_ERROR).2.map
          (Event.mapRegion 0))
      else []
    Event.unmapRegion cellTag m :: remapEvs ++
      destroy_region_loop root_mems mapErr cellTag rest

/-- Embeds cell_destroy_internal, control.c lines 260-288: CPU handback,
region handback, arch_cell_destroy and arch_config_commit. -/
def cell_destroy_internal (st : HvState) (cellTag : Nat) (cell : Cell)
    (mapErr : MemRegion → Int) : List Event × HvState :=
  let st1 := destroy_cpu_updates st cell.cpus
  let root_mems := (st.cells.headD default).mems
  (cell.cpus.map Event.park ++ destroy_region_loop root_mems mapErr cellTag cell.mems
     ++ [Event.commit],
   st1)

/-- Embeds cell_destroy, control.c lines 566-593. -/
def cell_destroy (st : HvState) (self : Nat) (callerRoot : Bool) (id : Nat)
    (mapErr : MemRegion → Int) : Int × List Event × HvState :=
  let pro := cell_management_prologue management_task.CELL_DESTROY st self callerRoot id
  match pro.2.1 with
  | none => (pro.1, pro.2.2, st)
  | some i =>
    let cell := (st.cells[i]?).getD default
    let internal := cell_destroy_internal st i cell mapErr
    let st2 := { internal.2 with cells := internal.2.cells.eraseIdx i,
                                 num_cells := internal.2.num_cells - 1 }
    (0, pro.2.2 ++ internal.1 ++ [Event.freePages cell.data_pages]
          ++ resume_events (st2.cells.headD default) self,
     st2)

/-- A cell configuration descriptor (struct jailhouse_cell_desc) as read from
guest memory: name, feature flags, cpu set size in bytes, the set bits of the
cpu bitmap in ascending order, and the memory regions. -/
structure CellConfig where
  name : Nat
  flags : Nat
  cpu_set_size : Nat
  cpus : List Nat
  mems : List MemRegion
deriving DecidableEq, Repr, Inhabited

/-- Embeds check_mem_regions, control.c lines 179-197: every region must have
page aligned addresses and size and only recognized flags. -/
def check_mem_regions (mems : List MemRegion) : Int :=
  if mems.all (fun m => decide (m.phys_start % PAGE_SIZE = 0 ∧
                                m.virt_start % PAGE_SIZE = 0 ∧
                                m.size % PAGE_SIZE = 0 ∧
                                m.flags ≤ JAILHOUSE_MEM_VALID_FLAGS))
  then 0 else -EINVAL

/-- Embeds cell_init, control.c lines 147-171: the id is assigned from
get_free_cell_id before the checks; a cpu set larger than a page is INVAL;
a cpu set larger than the inline buffer needs a page whose allocation may
fail (allocOk oracle).  Returns the error and the assigned id. -/
def cell_init (cells : List Cell) (cfg : CellConfig) (allocOk : Bool) : Int × Nat :=
  let id := get_free_cell_id (cells.map Cell.id)
  if cfg.cpu_set_size > PAGE_SIZE then (-EINVAL, id)
  else if cfg.cpu_set_size > SMALL_CPU_SET_BITMAP_BYTES ∧ allocOk = false then (-ENOMEM, id)
  else (0, id)

/-- Oracle for one run of cell_create: the configuration read from guest
memory together with the outcomes of the environment dependent steps (guest
page mapping, pool allocation, architecture calls). -/
structure CreateOracle where
  cfg : CellConfig
  cfgMapOk : Bool
  cfgTooBig : Bool
  cfgMap2Ok : Bool
  cellAllocOk : Bool
  cell_pages : Nat
  cpuSetAllocOk : Bool
  archCreateErr : Int
  unmapErr : MemRegion → Int
  mapErr : MemRegion → Int
  rootRemapErr : MemRegion → Int
  shutdown_ok : Bool
deriving Inhabited

/-- The per-CPU loop of cell_create, control.c lines 378-384: each CPU of the
new cell is parked, cleared from the root bitmap, its per-CPU record pointed
at the new cell and its counters zeroed. -/
def create_cpu_assign (newIdx : Nat) (st : HvState) : List Nat → HvState
  | [] => st
  | c :: rest =>
    let cells' :=
      match st.cells with
      | [] => []
      | root :: others => { root with cpus := root.cpus.erase c } :: others
    create_cpu_assign newIdx
      { st with
        cells := cells',
        percpu_cell := fun x => if x = c then newIdx else st.percpu_cell x,
        percpu_stats := fun x => if x = c then (st.percpu_stats x).map (fun _ => 0)
                                 else st.percpu_stats x } rest

/-- The region loop of cell_create, control.c lines 390-405: every region not
flagged COMM_REGION is unmapped from the root cell, then every region is
mapped into the new cell; the first error stops the loop. -/
def create_region_loop (unmapErr mapErr : MemRegion → Int) (newIdx : Nat) :
    List MemRegion → Int × List Event
  | [] => (0, [])
  | m :: rest =>
    if m.flags &&& JAILHOUSE_MEM_COMM_REGION = 0 then
      let tmp := unmap_from_root_tmp m
      if unmapErr tmp ≠ 0 then (unmapErr tmp, [Event.unmapRegion 0 tmp])
      else if mapErr m ≠ 0 then
        (mapErr m, [Event.unmapRegion 0 tmp, Event.mapRegion newIdx m])
      else
        let rest' := create_region_loop unmapErr mapErr newIdx rest
        (rest'.1, Event.unmapRegion 0 tmp :: Event.mapRegion newIdx m :: rest'.2)
    else
      if mapErr m ≠ 0 then (mapErr m, [Event.mapRegion newIdx m])
      else
        let rest' := create_region_loop unmapErr mapErr newIdx rest
        (rest'.1, Event.mapRegion newIdx m :: rest'.2)

/-- The cell structure built by cell_create from the copied configuration
(control.c lines 353-368); the struct is zero filled before use. -/
def new_cell_of_config (orc : CreateOracle) (newId : Nat) : Cell :=
  { id := newId,
    name := orc.cfg.name,
    cell_state := 0,
    msg_to_cell := 0,
    loadable := false,
    shutdown_ok := orc.shutdown_ok,
    cfg_flags := orc.cfg.flags,
    cpu_set_size := orc.cfg.cpu_set_size,
    cpus := orc.cfg.cpus,
    mems := orc.cfg.mems,
    data_pages := orc.cell_pages }

/-- Embeds cell_create, control.c lines 290-438.  self is the calling CPU,
callerRoot states whether it runs in the root cell.  Returns the hypercall
result (the new cell id on success), the trace of architecture and pool
calls, and the new state. -/
def cell_create (st : HvState) (self : Nat) (callerRoot : Bool)
    (orc : CreateOracle) : Int × List Event × HvState :=
  if callerRoot = false then (-EPERM, [], st)
  else
    let root := st.cells.headD default
    let sus := suspend_events root self
    let resumeNow := fun (err : Int) => (err, sus ++ resume_events root self, st)
    if cell_reconfig_ok st.cells none = false then resumeNow (-EPERM)
    else if orc.cfgMapOk = false then resumeNow (-ENOMEM)
    else if st.cells.any (fun c => c.name == orc.cfg.name) then resumeNow (-EEXIST)
    else if orc.cfgTooBig then resumeNow (-E2BIG)
    else if orc.cfgMap2Ok = false then resumeNow (-ENOMEM)
    else if check_mem_regions orc.cfg.mems ≠ 0 then resumeNow (check_mem_regions orc.cfg.mems)
    else if orc.cellAllocOk = false then resumeNow (-ENOMEM)
    else
      let freeAndResume := fun (err : Int) =>
        (err, sus ++ [Event.freePages orc.cell_pages] ++ resume_events root self, st)
      let ini := cell_init st.cells orc.cfg orc.cpuSetAllocOk
      if ini.1 ≠ 0 then freeAndResume ini.1
      else
        let newCell := new_cell_of_config orc ini.2
        if newCell.cpus.contains self then freeAndResume (-EBUSY)
        else if (newCell.cpus.all (fun c => root.cpus.contains c)) = false then
          freeAndResume (-EBUSY)
        else if orc.archCreateErr ≠ 0 then freeAndResume orc.archCreateErr
        else
          let newIdx := st.cells.length
          let parks := newCell.cpus.map Event.park
          let st1 := create_cpu_assign newIdx st newCell.cpus
          let lres := create_region_loop orc.unmapErr orc.mapErr newIdx newCell.mems
          if lres.1 ≠ 0 then
            let internal := cell_destroy_internal st1 newIdx newCell orc.rootRemapErr
            (lres.1,
             sus ++ parks ++ lres.2 ++ internal.1
               ++ [Event.freePages newCell.data_pages]
               ++ resume_events (internal.2.cells.headD default) self,
             internal.2)
          else
            let newCell' := { newCell with cell_state := JAILHOUSE_CELL_SHUT_DOWN }
            let st2 := { st1 with cells := st1.cells ++ [newCell'],
                                  num_cells := st1.num_cells + 1 }
            ((newCell.id : Int),
             sus ++ parks ++ lres.2 ++ [Event.commit]
               ++ resume_events (st2.cells.headD default) self,
             st2)

/-- Embeds cpu_id_valid, control.c lines 45-52: the id must fall inside the
configured bitmap and its bit must be set in the root cpu set of the system
configuration. -/
def cpu_id_valid (cpu_set_size : Nat) (sysBitmap : Nat → Bool) (cpu_id : Nat) : Bool :=
  decide (cpu_id < cpu_set_size * 8) && sysBitmap cpu_id

/-- Embeds cpu_get_info, control.c lines 697-721.  nstats is the architecture
constant JAILHOUSE_NUM_CPU_STATS; stats gives the per-CPU counter array;
failed the per-CPU failed flag; callerRoot and callerOwns describe the
calling cell.  BIT_MASK(30, 0) is the 31 low bits. -/
def cpu_get_info (cpu_set_size : Nat) (sysBitmap : Nat → Bool) (callerRoot : Bool)
    (callerOwns : Nat → Bool) (failed : Nat → Bool) (stats : Nat → List Nat)
    (nstats : Nat) (cpu_id ty : Nat) : Int :=
  if cpu_id_valid cpu_set_size sysBitmap cpu_id = false then -EINVAL
  else if callerRoot = false ∧ callerOwns cpu_id = false then -EPERM
  else if ty = JAILHOUSE_CPU_INFO_STATE then
    (if failed cpu_id then JAILHOUSE_CPU_FAILED else JAILHOUSE_CPU_RUNNING)
  else if JAILHOUSE_CPU_INFO_STAT_BASE ≤ ty ∧ ty - JAILHOUSE_CPU_INFO_STAT_BASE < nstats then
    (((stats cpu_id).getD (ty - JAILHOUSE_CPU_INFO_STAT_BASE) 0 &&& (2 ^ 31 - 1) : Nat) : Int)
  else -EINVAL

/-- Events that touch memory mappings: arch_map_memory_region,
arch_unmap_memory_region and arch_config_commit. -/
def touches_mappings : Event → Bool
  | Event.mapRegion _ _ => true
  | Event.unmapRegion _ _ => true
  | Event.commit => true
  | _ => false

/-- Every CPU that received arch_suspend_cpu in the trace later receives
arch_resume_cpu, arch_park_cpu or arch_reset_cpu (the architecture hand off
calls that release a quiesced CPU). -/
def suspend_paired (tr : List Event) : Prop :=
  ∀ cpu, Event.suspend cpu ∈ tr →
    Event.resume cpu ∈ tr ∨ Event.park cpu ∈ tr ∨ Event.reset cpu ∈ tr

/-- Root cell of the concrete sample state used by the witnesses. -/
def rootW : Cell :=
  { id := 0, name := 0, cell_state := 0, msg_to_cell := 0, loadable := false,
    shutdown_ok := true, cfg_flags := 0, cpu_set_size := 1, cpus := [0, 1],
    mems := [⟨0, 0, 16384, 7⟩], data_pages := 1 }

/-- Non root cell of the concrete sample state used by the witnesses: id 1,
already loadable, consenting to shutdown, one CPU, one LOADABLE region. -/
def cellW : Cell :=
  { id := 1, name := 5, cell_state := 2, msg_to_cell := 0, loadable := true,
    shutdown_ok := true, cfg_flags := 0, cpu_set_size := 1, cpus := [2],
    mems := [⟨4096, 4096, 4096, 32⟩], data_pages := 2 }

/-- Concrete sample state: the root cell and one non root cell. -/
def stW : HvState :=
  { cells := [rootW, cellW], percpu_failed := fun _ => true,
    percpu_cell := fun _ => 0, percpu_stats := fun _ => [0], num_cells := 2 }

/-! Theorems.  Helper lemmas first. -/

/-- With an error free arch_map_memory_region, the remap loop installs exactly
the overlap descriptors of the region pairs and reports no error. -/
lemma remap_loop_all_zero (mem : MemRegion) (mapErr : MemRegion → Int)
    (mode : failure_mode) (h : ∀ d, mapErr d = 0) :
    ∀ l : List MemRegion, remap_loop mem mapErr mode l 0 = (0, l.filterMap (remap_overlap mem))
  | [] => rfl
  | r :: rest => by
    simp only [remap_loop]
    cases hov : remap_overlap mem r with
    | none =>
      simp [hov, remap_loop_all_zero mem mapErr mode h rest, List.filterMap_cons]
    | some ov =>
      simp [hov, h ov, remap_loop_all_zero mem mapErr mode h rest, List.filterMap_cons]

/-- C3 (amended): for region pairs of positive size, remap_to_root_cell
computes an overlap descriptor exactly when the physical intervals intersect,
and the descriptor covers exactly the intersection, with the virtual offset
and the flags of the root region; with an error free arch_map_memory_region
the installed descriptors are exactly the overlap descriptors of the pairs. -/
theorem remap_to_root_cell_overlap :
    ∀ m r : MemRegion, 0 < m.size → 0 < r.size →
    (((remap_overlap m r).isSome ↔
        max m.phys_start r.phys_start <
          min (m.phys_start + m.size) (r.phys_start + r.size)) ∧
     (∀ d, remap_overlap m r = some d →
        d.phys_start = max m.phys_start r.phys_start ∧
        d.phys_start + d.size =
          min (m.phys_start + m.size) (r.phys_start + r.size) ∧
        d.virt_start + r.phys_start = r.virt_start + d.phys_start ∧
        d.flags = r.flags) ∧
     (∀ (root_mems : List MemRegion) (mapErr : MemRegion → Int) (mode : failure_mode),
        (∀ d, mapErr d = 0) →
        (remap_to_root_cell m root_mems mapErr mode).2 =
          root_mems.filterMap (remap_overlap m))) := by
  intro m r hm hr
  refine ⟨?_, ?_, ?_⟩
  · simp only [remap_overlap, address_in_region, decide_eq_true_eq]
    split_ifs <;> simp <;> omega
  · intro d hd
    simp only [remap_overlap, address_in_region, decide_eq_true_eq] at hd
    split_ifs at hd <;> rw [Option.some.injEq] at hd <;> subst hd <;>
      refine ⟨by dsimp; omega, by dsimp; omega, by dsimp; omega, rfl⟩
  · intro root_mems mapErr mode hz
    simp [remap_to_root_cell, remap_loop_all_zero m mapErr mode hz root_mems]

/-- Witness for C3 at a concrete pair: a 4 KiB region at 0 against an 8 KiB
root region at 0. -/
theorem remap_to_root_cell_overlap_witness :
    (0 : Nat) < 4096 ∧
    ((remap_overlap ⟨0, 0, 4096, 0⟩ ⟨0, 16384, 8192, 5⟩).isSome ↔
      max 0 0 < min (0 + 4096) (0 + 8192)) :=
  ⟨by decide, (remap_to_root_cell_overlap ⟨0, 0, 4096, 0⟩ ⟨0, 16384, 8192, 5⟩
      (by decide) (by decide)).1⟩

/-- C3 counterexample: a zero size region whose start lies inside a root
region makes remap_to_root_cell install a (zero size) descriptor although the
physical intervals have empty intersection, refuting the claim as stated for
arbitrary regions. -/
theorem remap_installs_empty_overlap_cex :
    (remap_to_root_cell ⟨4096, 0, 0, 0⟩ [⟨0, 0, 8192, 7⟩] (fun _ => 0)
        failure_mode.ABORT_ON_ERROR).2 ≠ [] ∧
    ¬ (max 4096 0 < min (4096 + 0) (0 + 8192)) := by decide

/-- Among 0 .. length there is a number missing from the list. -/
lemma exists_le_length_not_mem (ids : List Nat) : ∃ m, m ≤ ids.length ∧ m ∉ ids := by
  by_contra h
  push_neg at h
  have hsub : Finset.range (ids.length + 1) ⊆ ids.toFinset := by
    intro x hx
    rw [List.mem_toFinset]
    exact h x (Nat.lt_succ_iff.mp (Finset.mem_range.mp hx))
  have hc := Finset.card_le_card hsub
  rw [Finset.card_range] at hc
  have h2 := ids.toFinset_card_le
  omega

/-- The id scan loop returns the least free id at or above its start value,
provided some free id is within fuel reach. -/
lemma get_free_cell_id_loop_spec (ids : List Nat) :
    ∀ fuel k, (∃ m, k ≤ m ∧ m ∉ ids ∧ m - k ≤ fuel) →
      get_free_cell_id_loop ids fuel k ∉ ids ∧
      k ≤ get_free_cell_id_loop ids fuel k ∧
      ∀ j, k ≤ j → j < get_free_cell_id_loop ids fuel k → j ∈ ids := by
  intro fuel
  induction fuel with
  | zero =>
    intro k hk
    obtain ⟨m, h1, h2, h3⟩ := hk
    have : m = k := by omega
    subst this
    exact ⟨h2, Nat.le_refl _, fun j hj1 hj2 => by simp [get_free_cell_id_loop] at hj2; omega⟩
  | succ fuel ih =>
    intro k hk
    obtain ⟨m, h1, h2, h3⟩ := hk
    by_cases hmem : k ∈ ids
    · have hkm : k ≠ m := fun he => h2 (he ▸ hmem)
      have hih := ih (k + 1) ⟨m, by omega, h2, by omega⟩
      simp only [get_free_cell_id_loop, if_pos hmem]
      refine ⟨hih.1, by omega, fun j hj1 hj2 => ?_⟩
      rcases Nat.eq_or_lt_of_le hj1 with he | hlt
      · exact he ▸ hmem
      · exact hih.2.2 j hlt hj2
    · simp only [get_free_cell_id_loop, if_neg hmem]
      exact ⟨hmem, Nat.le_refl _, fun j hj1 hj2 => by omega⟩

/-- C6: get_free_cell_id returns the smallest id not in use, cell_init assigns
exactly this id to a new cell, and the new id keeps the live ids pairwise
distinct. -/
theorem get_free_cell_id_smallest :
    ∀ (ids : List Nat) (cells : List Cell) (cfg : CellConfig) (allocOk : Bool),
      get_free_cell_id ids ∉ ids ∧
      (∀ k, k < get_free_cell_id ids → k ∈ ids) ∧
      (cell_init cells cfg allocOk).2 = get_free_cell_id (cells.map Cell.id) ∧
      (ids.Nodup → (get_free_cell_id ids :: ids).Nodup) := by
  intro ids cells cfg allocOk
  obtain ⟨m, hm1, hm2⟩ := exists_le_length_not_mem ids
  have hspec := get_free_cell_id_loop_spec ids (ids.length + 1) 0 ⟨m, by omega, hm2, by omega⟩
  refine ⟨hspec.1, fun k hk => hspec.2.2 k (by omega) hk, ?_, fun hnd => ?_⟩
  · simp only [cell_init]
    split_ifs <;> rfl
  · exact List.nodup_cons.mpr ⟨hspec.1, hnd⟩

/-- Witness for C6 on the id list [0, 1, 3]. -/
theorem get_free_cell_id_smallest_witness :
    (1 : Nat) < get_free_cell_id [0, 1, 3] ∧ (1 : Nat) ∈ [0, 1, 3] ∧
    get_free_cell_id [0, 1, 3] ∉ ([0, 1, 3] : List Nat) :=
  ⟨by decide,
   (get_free_cell_id_smallest [0, 1, 3] [] default true).2.1 1 (by decide),
   (get_free_cell_id_smallest [0, 1, 3] [] default true).1⟩

/-- The next_cpu loop, given enough fuel, moves strictly up, skips only CPUs
that are the exception or not in the bitmap, and stops within the bitmap only
on a qualifying CPU. -/
lemma next_cpu_loop_spec (s : cpu_set) (exc : Int) :
    ∀ fuel cpu, s.max_cpu_id ≤ fuel + cpu →
      cpu < next_cpu_loop s exc fuel cpu ∧
      (∀ k, cpu < k → k < next_cpu_loop s exc fuel cpu →
        ¬(k ≤ s.max_cpu_id ∧ s.bitmap k = true ∧ (k : Int) ≠ exc)) ∧
      (next_cpu_loop s exc fuel cpu ≤ s.max_cpu_id →
        s.bitmap (next_cpu_loop s exc fuel cpu) = true ∧
        ((next_cpu_loop s exc fuel cpu : Int) ≠ exc)) := by
  intro fuel
  induction fuel with
  | zero =>
    intro cpu hcpu
    simp only [next_cpu_loop]
    exact ⟨by omega, fun k hk1 hk2 => by omega, fun hle => by omega⟩
  | succ fuel ih =>
    intro cpu hcpu
    simp only [next_cpu_loop]
    split_ifs with hcond
    · have hih := ih (cpu + 1) (by omega)
      refine ⟨by omega, fun k hk1 hk2 => ?_, hih.2.2⟩
      rcases Nat.lt_or_ge (cpu + 1) k with hlt | hge
      · exact hih.2.1 k hlt hk2
      · have hk : k = cpu + 1 := by omega
        subst hk
        rintro ⟨hle, hbit, hexc⟩
        rcases hcond.2 with hq | hq
        · exact hexc hq
        · rw [hbit] at hq
          exact absurd hq (by decide)
    · refine ⟨by omega, fun k hk1 hk2 => by omega, fun hle => ?_⟩
      rw [not_and_or] at hcond
      rcases hcond with hc | hc
      · omega
      · rw [not_or] at hc
        refine ⟨?_, hc.1⟩
        cases hb : s.bitmap (cpu + 1)
        · exact absurd hb hc.2
        · rfl

/-- C7: next_cpu returns the least CPU id strictly above the start that is in
the bitmap and differs from the exception; when no CPU at most max_cpu_id
qualifies, the result exceeds max_cpu_id. -/
theorem next_cpu_least :
    ∀ (s : cpu_set) (cpu : Nat) (exc : Int),
      ((∃ k, cpu < k ∧ k ≤ s.max_cpu_id ∧ s.bitmap k = true ∧ (k : Int) ≠ exc) →
        cpu < next_cpu cpu s exc ∧ next_cpu cpu s exc ≤ s.max_cpu_id ∧
        s.bitmap (next_cpu cpu s exc) = true ∧ ((next_cpu cpu s exc : Int) ≠ exc) ∧
        ∀ k, cpu < k → k ≤ s.max_cpu_id → s.bitmap k = true → (k : Int) ≠ exc →
          next_cpu cpu s exc ≤ k) ∧
      ((∀ k, cpu < k → k ≤ s.max_cpu_id → s.bitmap k = true → (k : Int) = exc) →
        s.max_cpu_id < next_cpu cpu s exc) := by
  intro s cpu exc
  have hspec := next_cpu_loop_spec s exc (s.max_cpu_id + 1) cpu (by omega)
  rw [show next_cpu_loop s exc (s.max_cpu_id + 1) cpu = next_cpu cpu s exc from rfl] at hspec
  constructor
  · rintro ⟨k, hk1, hk2, hk3, hk4⟩
    have hle : next_cpu cpu s exc ≤ s.max_cpu_id := by
      by_contra hgt
      exact hspec.2.1 k hk1 (by omega) ⟨hk2, hk3, hk4⟩
    have hq := hspec.2.2 hle
    refine ⟨hspec.1, hle, hq.1, hq.2, fun j hj1 hj2 hj3 hj4 => ?_⟩
    by_contra hlt
    exact hspec.2.1 j hj1 (by omega) ⟨hj2, hj3, hj4⟩
  · intro hnone
    by_contra hgt
    push_neg at hgt
    have hq := hspec.2.2 hgt
    exact hq.2 (hnone _ hspec.1 hgt hq.1)

/-- Witness for C7: bitmap with bit 2 set, max_cpu_id 3, no exception. -/
theorem next_cpu_least_witness :
    0 < next_cpu 0 ⟨3, fun n => n == 2⟩ (-1) ∧
    next_cpu 0 ⟨3, fun n => n == 2⟩ (-1) ≤ 3 ∧
    (fun n => n == 2) (next_cpu 0 ⟨3, fun n => n == 2⟩ (-1)) = true :=
  have h := (next_cpu_least ⟨3, fun n => n == 2⟩ 0 (-1)).1
    ⟨2, by decide, by decide, by decide, by decide⟩
  ⟨h.1, h.2.1, h.2.2.1⟩

/-- An observation with no terminal cell state and reply NONE leaves the poll
loop of cell_send_message undecided. -/
lemma msg_poll_step_none (ty : msg_type) (o : CommObservation)
    (h1 : o.cell_state ≠ JAILHOUSE_CELL_SHUT_DOWN)
    (h2 : o.cell_state ≠ JAILHOUSE_CELL_FAILED)
    (h3 : o.reply = JAILHOUSE_MSG_NONE) : msg_poll_step ty o = none := by
  simp only [msg_poll_step, JAILHOUSE_MSG_NONE, JAILHOUSE_MSG_REQUEST_APPROVED,
    JAILHOUSE_MSG_RECEIVED] at *
  rw [if_neg (by tauto), if_neg (by omega), if_neg (by omega)]

/-- Undecided observations are skipped by the poll loop. -/
lemma msg_poll_loop_append (ty : msg_type) :
    ∀ pre rest : List CommObservation,
      (∀ p ∈ pre, msg_poll_step ty p = none) →
      msg_poll_loop ty (pre ++ rest) = msg_poll_loop ty rest
  | [], rest, _ => rfl
  | o :: pre, rest, h => by
    simp only [List.cons_append, msg_poll_loop, h o (by simp)]
    exact msg_poll_loop_append ty pre rest fun p hp => h p (by simp [hp])

/-- C5: cell_send_message accepts unconditionally, without writing the page,
for a PASSIVE_COMMREG cell; otherwise it writes the page and, at the first
deciding poll iteration, accepts on a terminal cell state, accepts on the
matching reply for the message type, rejects on any other reply different
from NONE, and keeps polling on reply NONE. -/
theorem cell_send_message_decision :
    ∀ (flags : Nat) (ty : msg_type) (pre rest : List CommObservation)
      (o : CommObservation),
      (flags &&& JAILHOUSE_CELL_PASSIVE_COMMREG ≠ 0 →
        ∀ obss, cell_send_message flags ty obss = (false, some true)) ∧
      (flags &&& JAILHOUSE_CELL_PASSIVE_COMMREG = 0 →
        (∀ p ∈ pre, p.cell_state ≠ JAILHOUSE_CELL_SHUT_DOWN ∧
            p.cell_state ≠ JAILHOUSE_CELL_FAILED ∧ p.reply = JAILHOUSE_MSG_NONE) →
        (cell_send_message flags ty (pre ++ o :: rest)).1 = true ∧
        ((o.cell_state = JAILHOUSE_CELL_SHUT_DOWN ∨ o.cell_state = JAILHOUSE_CELL_FAILED) →
          (cell_send_message flags ty (pre ++ o :: rest)).2 = some true) ∧
        (o.cell_state ≠ JAILHOUSE_CELL_SHUT_DOWN → o.cell_state ≠ JAILHOUSE_CELL_FAILED →
          ((ty = msg_type.MSG_REQUEST ∧ o.reply = JAILHOUSE_MSG_REQUEST_APPROVED) ∨
           (ty = msg_type.MSG_INFORMATION ∧ o.reply = JAILHOUSE_MSG_RECEIVED)) →
          (cell_send_message flags ty (pre ++ o :: rest)).2 = some true) ∧
        (o.cell_state ≠ JAILHOUSE_CELL_SHUT_DOWN → o.cell_state ≠ JAILHOUSE_CELL_FAILED →
          ¬((ty = msg_type.MSG_REQUEST ∧ o.reply = JAILHOUSE_MSG_REQUEST_APPROVED) ∨
            (ty = msg_type.MSG_INFORMATION ∧ o.reply = JAILHOUSE_MSG_RECEIVED)) →
          o.reply ≠ JAILHOUSE_MSG_NONE →
          (cell_send_message flags ty (pre ++ o :: rest)).2 = some false) ∧
        (o.cell_state ≠ JAILHOUSE_CELL_SHUT_DOWN → o.cell_state ≠ JAILHOUSE_CELL_FAILED →
          o.reply = JAILHOUSE_MSG_NONE →
          (cell_send_message flags ty (pre ++ o :: rest)).2 = msg_poll_loop ty rest)) := by
  intro flags ty pre rest o
  constructor
  · intro hp obss
    simp [cell_send_message, hp]
  · intro hp hpre
    have hcond : ¬ flags &&& JAILHOUSE_CELL_PASSIVE_COMMREG ≠ 0 := by simp [hp]
    have hskip : ∀ tail, msg_poll_loop ty (pre ++ tail) = msg_poll_loop ty tail :=
      fun tail => msg_poll_loop_append ty pre tail fun p hmem =>
        msg_poll_step_none ty p (hpre p hmem).1 (hpre p hmem).2.1 (hpre p hmem).2.2
    simp only [cell_send_message, if_neg hcond]
    refine ⟨by trivial, ?_, ?_, ?_, ?_⟩
    · intro hterm
      have hstep : msg_poll_step ty o = some true := by
        unfold msg_poll_step
        rw [if_pos hterm]
      rw [hskip (o :: rest)]
      simp only [msg_poll_loop, hstep]
    · intro h1 h2 hmatch
      have hstep : msg_poll_step ty o = some true := by
        unfold msg_poll_step
        rw [if_neg (by tauto), if_pos hmatch]
      rw [hskip (o :: rest)]
      simp only [msg_poll_loop, hstep]
    · intro h1 h2 hmatch hrep
      have hstep : msg_poll_step ty o = some false := by
        unfold msg_poll_step
        rw [if_neg (by tauto), if_neg hmatch, if_pos hrep]
      rw [hskip (o :: rest)]
      simp only [msg_poll_loop, hstep]
    · intro h1 h2 hrep
      have hstep := msg_poll_step_none ty o h1 h2 hrep
      rw [hskip (o :: rest)]
      simp only [msg_poll_loop, hstep]

/-- Witness for C5: a non passive cell, one undecided poll followed by an
approval of a request. -/
theorem cell_send_message_decision_witness :
    (cell_send_message 0 msg_type.MSG_REQUEST
        ([⟨0, 0⟩] ++ ⟨2, 0⟩ :: [])).2 = some true :=
  ((cell_send_message_decision 0 msg_type.MSG_REQUEST [⟨0, 0⟩] [] ⟨2, 0⟩).2
      (by decide) (by decide)).2.2.1 (by decide) (by decide) (by decide)

/-- C8: for a valid CPU id and an authorized caller, a statistics query
returns the chosen counter masked to its 31 low bits (hence non negative and
below 2 to the 31), and every statistics index at or beyond the number of
counters yields INVAL; the index arithmetic type - STAT_BASE is the unsigned
64 bit subtraction of the hypercall argument. -/
theorem cpu_get_info_stats :
    ∀ (css : Nat) (sysb : Nat → Bool) (cr : Bool) (owns failed : Nat → Bool)
      (stats : Nat → List Nat) (nstats cpu_id ty : Nat),
      cpu_id_valid css sysb cpu_id = true →
      (cr = true ∨ owns cpu_id = true) →
      ty ≠ JAILHOUSE_CPU_INFO_STATE →
      ty < 2 ^ 64 → nstats ≤ 2 ^ 32 →
      (((ty + 2 ^ 64 - JAILHOUSE_CPU_INFO_STAT_BASE) % 2 ^ 64 < nstats →
        cpu_get_info css sysb cr owns failed stats nstats cpu_id ty =
          (((stats cpu_id).getD
              ((ty + 2 ^ 64 - JAILHOUSE_CPU_INFO_STAT_BASE) % 2 ^ 64) 0
            &&& (2 ^ 31 - 1) : Nat) : Int) ∧
        0 ≤ cpu_get_info css sysb cr owns failed stats nstats cpu_id ty ∧
        (cpu_get_info css sysb cr owns failed stats nstats cpu_id ty).toNat < 2 ^ 31) ∧
       (¬ (ty + 2 ^ 64 - JAILHOUSE_CPU_INFO_STAT_BASE) % 2 ^ 64 < nstats →
        cpu_get_info css sysb cr owns failed stats nstats cpu_id ty = -EINVAL)) := by
  intro css sysb cr owns failed stats nstats cpu_id ty hvalid hauth hstate hty hn
  have hbase : JAILHOUSE_CPU_INFO_STAT_BASE = 1000 := rfl
  have h1 : ¬ cpu_id_valid css sysb cpu_id = false := by simp [hvalid]
  have h2 : ¬ (cr = false ∧ owns cpu_id = false) := by
    rcases hauth with h | h <;> simp [h]
  unfold cpu_get_info
  rw [if_neg h1, if_neg h2, if_neg hstate]
  by_cases hge : JAILHOUSE_CPU_INFO_STAT_BASE ≤ ty
  · have husub : (ty + 2 ^ 64 - JAILHOUSE_CPU_INFO_STAT_BASE) % 2 ^ 64 =
        ty - JAILHOUSE_CPU_INFO_STAT_BASE := by
      rw [hbase]
      rw [hbase] at hge
      omega
    rw [husub]
    constructor
    · intro hlt
      rw [if_pos ⟨hge, hlt⟩]
      refine ⟨rfl, Int.ofNat_nonneg _, ?_⟩
      have hle : ((stats cpu_id).getD (ty - JAILHOUSE_CPU_INFO_STAT_BASE) 0
          &&& (2 ^ 31 - 1)) ≤ 2 ^ 31 - 1 := Nat.and_le_right
      simp only [Int.toNat_ofNat]
      omega
    · intro hnlt
      rw [if_neg (fun hc => hnlt hc.2)]
  · have husub : ¬ (ty + 2 ^ 64 - JAILHOUSE_CPU_INFO_STAT_BASE) % 2 ^ 64 < nstats := by
      rw [hbase]
      rw [hbase] at hge
      omega
    refine ⟨fun h => absurd h husub, fun _ => ?_⟩
    rw [if_neg (fun hc => hge hc.1)]

/-- Witness for C8: counter 1 of four holds 2 to the 31 plus 7; the query for
index 1 returns 7. -/
theorem cpu_get_info_stats_witness :
    (1001 + 2 ^ 64 - JAILHOUSE_CPU_INFO_STAT_BASE) % 2 ^ 64 < 4 ∧
    cpu_get_info 1 (fun _ => true) true (fun _ => true) (fun _ => false)
        (fun _ => [5, 2 ^ 31 + 7, 9, 0]) 4 0 1001 =
      ((([5, 2 ^ 31 + 7, 9, 0].getD
          ((1001 + 2 ^ 64 - JAILHOUSE_CPU_INFO_STAT_BASE) % 2 ^ 64) 0)
        &&& (2 ^ 31 - 1) : Nat) : Int) :=
  ⟨by decide,
   ((cpu_get_info_stats 1 (fun _ => true) true (fun _ => true) (fun _ => false)
      (fun _ => [5, 2 ^ 31 + 7, 9, 0]) 4 0 1001 (by decide) (Or.inl rfl) (by decide)
      (by decide) (by decide)).1 (by decide)).1⟩

/-- When no cell carries the id, the scan finds nothing. -/
lemma find_cell_loop_none (id : Nat) :
    ∀ (l : List Cell) (k : Nat), (∀ c ∈ l, c.id ≠ id) → find_cell_loop id l k = none
  | [], _, _ => rfl
  | c :: rest, k, h => by
    simp only [find_cell_loop, if_neg (h c (by simp))]
    exact find_cell_loop_none id rest (k + 1) fun x hx => h x (by simp [hx])

/-- The scan finds the first position whose cell carries the id. -/
lemma find_cell_loop_first (id : Nat) :
    ∀ (l : List Cell) (i k : Nat) (c : Cell),
      l[i]? = some c → c.id = id →
      (∀ j y, j < i → l[j]? = some y → y.id ≠ id) →
      find_cell_loop id l k = some (k + i)
  | [], i, k, c, h, _, _ => by simp at h
  | d :: rest, 0, k, c, h, hc, _ => by
    rw [List.getElem?_cons_zero, Option.some.injEq] at h
    subst h
    simp only [find_cell_loop, if_pos hc, Nat.add_zero]
  | d :: rest, i + 1, k, c, h, hc, hfirst => by
    have hd : d.id ≠ id := hfirst 0 d (by omega) (by simp)
    rw [List.getElem?_cons_succ] at h
    simp only [find_cell_loop, if_neg hd]
    rw [find_cell_loop_first id rest i (k + 1) c h hc
      (fun j y hj hy => hfirst (j + 1) y (by omega) (by simpa using hy))]
    simp only [Option.some.injEq]
    omega

/-- A locked non root cell other than the excluded one makes the reconfig
check fail. -/
lemma cell_reconfig_ok_loop_false (exc : Option Nat) :
    ∀ (l : List Cell) (k j : Nat) (y : Cell),
      l[j]? = some y → k + j ≠ 0 → exc ≠ some (k + j) →
      y.cell_state = JAILHOUSE_CELL_RUNNING_LOCKED →
      cell_reconfig_ok_loop exc l k = false
  | [], _, j, y, h, _, _, _ => by simp at h
  | c :: rest, k, 0, y, h, h0, hexc, hlock => by
    rw [List.getElem?_cons_zero, Option.some.injEq] at h
    subst h
    rw [Nat.add_zero] at h0 hexc
    simp only [cell_reconfig_ok_loop]
    rw [if_pos ⟨h0, hexc, hlock⟩]
  | c :: rest, k, j + 1, y, h, h0, hexc, hlock => by
    rw [List.getElem?_cons_succ] at h
    simp only [cell_reconfig_ok_loop]
    split_ifs with hc
    · rfl
    · exact cell_reconfig_ok_loop_false exc rest (k + 1) j y h (by omega)
        (by rw [show k + 1 + j = k + (j + 1) by omega]; exact hexc) hlock

/-- When every cell is the root, the excluded one or not locked, the reconfig
check passes. -/
lemma cell_reconfig_ok_loop_true (exc : Option Nat) :
    ∀ (l : List Cell) (k : Nat),
      (∀ j y, l[j]? = some y →
        (k + j = 0 ∨ exc = some (k + j) ∨ y.cell_state ≠ JAILHOUSE_CELL_RUNNING_LOCKED)) →
      cell_reconfig_ok_loop exc l k = true
  | [], _, _ => rfl
  | c :: rest, k, h => by
    have hc := h 0 c (by simp)
    rw [Nat.add_zero] at hc
    simp only [cell_reconfig_ok_loop]
    rw [if_neg ?_]
    · exact cell_reconfig_ok_loop_true exc rest (k + 1)
        (fun j y hy => by
          have := h (j + 1) y (by simpa using hy)
          rw [show k + (j + 1) = k + 1 + j by omega] at this
          exact this)
    · rintro ⟨hk0, hkexc, hklock⟩
      rcases hc with h1 | h1 | h1
      · exact hk0 h1
      · exact hkexc h1
      · exact h1 hklock

/-- C1: cell_management_prologue applies its checks in order: PERM for a non
root caller; then ENOENT when no cell carries the id; then INVAL when the id
names the root cell; then PERM when the target refuses the shutdown handshake
or, for destroy only, some other non root cell is RUNNING_LOCKED; otherwise
it succeeds with the target cell found. -/
theorem cell_management_prologue_check_order :
    ∀ (task : management_task) (st : HvState) (self : Nat) (cr : Bool) (id : Nat),
      (cr = false →
        (cell_management_prologue task st self cr id).1 = -EPERM) ∧
      (cr = true → (∀ c ∈ st.cells, c.id ≠ id) →
        (cell_management_prologue task st self cr id).1 = -ENOENT) ∧
      (cr = true → ∀ rootc rest, st.cells = rootc :: rest → rootc.id = id →
        (cell_management_prologue task st self cr id).1 = -EINVAL) ∧
      (∀ i c, cr = true → st.cells[i]? = some c → c.id = id → i ≠ 0 →
        (∀ j y, j < i → st.cells[j]? = some y → y.id ≠ id) →
        ((c.shutdown_ok = false ∨
            (task = management_task.CELL_DESTROY ∧ ∃ j y, st.cells[j]? = some y ∧
              j ≠ 0 ∧ j ≠ i ∧ y.cell_state = JAILHOUSE_CELL_RUNNING_LOCKED)) →
          (cell_management_prologue task st self cr id).1 = -EPERM ∧
          (cell_management_prologue task st self cr id).2.1 = none) ∧
        (c.shutdown_ok = true →
          (task = management_task.CELL_DESTROY →
            ∀ j y, st.cells[j]? = some y → j ≠ 0 → j ≠ i →
              y.cell_state ≠ JAILHOUSE_CELL_RUNNING_LOCKED) →
          (cell_management_prologue task st self cr id).1 = 0 ∧
          (cell_management_prologue task st self cr id).2.1 = some i)) := by
  intro task st self cr id
  refine ⟨?_, ?_, ?_, ?_⟩
  · intro h
    simp [cell_management_prologue, h]
  · intro hcr hnone
    have hfind : find_cell_index st.cells id = none :=
      find_cell_loop_none id st.cells 0 hnone
    rw [cell_management_prologue, if_neg (by simp [hcr]), hfind]
  · intro hcr rootc rest hcells hid
    have hfind : find_cell_index st.cells id = some 0 := by
      rw [hcells]
      simp [find_cell_index, find_cell_loop, hid]
    rw [cell_management_prologue, if_neg (by simp [hcr]), hfind]
    simp
  · intro i c hcr hget hid hi0 hfirst
    have hfind : find_cell_index st.cells id = some i := by
      have h := find_cell_loop_first id st.cells i 0 c hget hid hfirst
      rw [Nat.zero_add] at h
      exact h
    have htgt : (st.cells[i]?).getD default = c := by rw [hget]; rfl
    constructor
    · intro hguard
      have hg : (task = management_task.CELL_DESTROY ∧
          cell_reconfig_ok st.cells (some i) = false) ∨
          cell_shutdown_ok ((st.cells[i]?).getD default) = false := by
        rcases hguard with hsd | ⟨htask, j, y, hj, hj0, hji, hlock⟩
        · right
          rw [htgt]
          exact hsd
        · left
          refine ⟨htask, cell_reconfig_ok_loop_false (some i) st.cells 0 j y hj
            (by omega) ?_ hlock⟩
          rw [Nat.zero_add]
          exact fun he => hji (by injection he with he2; omega)
      rw [cell_management_prologue, if_neg (by simp [hcr]), hfind]
      simp only []
      rw [if_neg hi0, if_pos hg]
      exact ⟨rfl, rfl⟩
    · intro hsd hnolock
      have hg : ¬ ((task = management_task.CELL_DESTROY ∧
          cell_reconfig_ok st.cells (some i) = false) ∨
          cell_shutdown_ok ((st.cells[i]?).getD default) = false) := by
        rintro (⟨htask, hrc⟩ | hbad)
        · rw [cell_reconfig_ok, cell_reconfig_ok_loop_true (some i) st.cells 0 ?_] at hrc
          · exact absurd hrc (by decide)
          · intro j y hy
            rw [Nat.zero_add]
            by_cases hj0 : j = 0
            · left; exact hj0
            · by_cases hji : j = i
              · right; left; rw [hji]
              · right; right; exact hnolock htask j y hy hj0 hji
        · rw [htgt] at hbad
          rw [cell_shutdown_ok, hsd] at hbad
          exact absurd hbad (by decide)
      rw [cell_management_prologue, if_neg (by simp [hcr]), hfind]
      simp only []
      rw [if_neg hi0, if_neg hg]
      exact ⟨rfl, rfl⟩

/-- Witness for C1: on the sample state the prologue succeeds and finds the
cell at position 1. -/
theorem cell_management_prologue_check_order_witness :
    (cell_management_prologue management_task.CELL_START stW 0 true 1).1 = 0 ∧
    (cell_management_prologue management_task.CELL_START stW 0 true 1).2.1 = some 1 :=
  ((cell_management_prologue_check_order management_task.CELL_START stW 0 true 1).2.2.2
      1 cellW rfl rfl (by decide) (by decide)
      (fun j y hj hy => by
        have hj0 : j = 0 := by omega
        subst hj0
        simp only [stW, List.getElem?_cons_zero, Option.some.injEq] at hy
        rw [← hy]
        decide)).2 (by decide)
    (fun htask => by exact absurd htask (by decide))

/-- Membership characterization of the suspend trace of a cell. -/
lemma suspend_mem_suspend_events {cpu : Nat} {c : Cell} {self : Nat} :
    Event.suspend cpu ∈ suspend_events c self ↔ cpu ∈ c.cpus ∧ cpu ≠ self := by
  constructor
  · intro h
    simp only [suspend_events, List.mem_map, List.mem_filter, bne_iff_ne, ne_eq] at h
    obtain ⟨a, ⟨ha1, ha2⟩, ha3⟩ := h
    injection ha3 with h4
    subst h4
    exact ⟨ha1, ha2⟩
  · rintro ⟨h1, h2⟩
    simp only [suspend_events, List.mem_map, List.mem_filter, bne_iff_ne, ne_eq]
    exact ⟨cpu, ⟨h1, h2⟩, rfl⟩

/-- A CPU of the cell other than the caller appears in the resume trace. -/
lemma resume_mem_resume_events {cpu : Nat} {c : Cell} {self : Nat}
    (h1 : cpu ∈ c.cpus) (h2 : cpu ≠ self) : Event.resume cpu ∈ resume_events c self := by
  simp only [resume_events, List.mem_map, List.mem_filter, bne_iff_ne, ne_eq]
  exact ⟨cpu, ⟨h1, h2⟩, rfl⟩

/-- The resume trace holds no suspend calls. -/
lemma suspend_not_mem_resume_events {cpu : Nat} {c : Cell} {self : Nat} :
    Event.suspend cpu ∉ resume_events c self := by
  simp [resume_events]

/-- Suspend and resume calls do not touch memory mappings. -/
lemma touches_of_mem_suspend_events {e : Event} {c : Cell} {self : Nat}
    (h : e ∈ suspend_events c self) : touches_mappings e = false := by
  simp only [suspend_events, List.mem_map] at h
  obtain ⟨a, _, rfl⟩ := h
  rfl

/-- Resume calls do not touch memory mappings. -/
lemma touches_of_mem_resume_events {e : Event} {c : Cell} {self : Nat}
    (h : e ∈ resume_events c self) : touches_mappings e = false := by
  simp only [resume_events, List.mem_map] at h
  obtain ⟨a, _, rfl⟩ := h
  rfl

/-- A suspend and resume pair over the same cell is balanced. -/
lemma suspend_paired_sus_res (c : Cell) (self : Nat) :
    suspend_paired (suspend_events c self ++ resume_events c self) := by
  intro cpu h
  rcases List.mem_append.mp h with h1 | h1
  · obtain ⟨hm, hs⟩ := suspend_mem_suspend_events.mp h1
    exact Or.inl (List.mem_append.mpr (Or.inr (resume_mem_resume_events hm hs)))
  · exact absurd h1 suspend_not_mem_resume_events

/-- On success the prologue ran with a root caller, found a non root cell, and
its trace is the suspension of the root cell followed by the target cell. -/
lemma prologue_some_facts (task : management_task) (st : HvState) (self : Nat)
    (cr : Bool) (id : Nat) (i : Nat)
    (hp : (cell_management_prologue task st self cr id).2.1 = some i) :
    cr = true ∧ i ≠ 0 ∧ st.cells ≠ [] ∧
    (cell_management_prologue task st self cr id).1 = 0 ∧
    (cell_management_prologue task st self cr id).2.2 =
      suspend_events (st.cells.headD default) self ++
        suspend_events ((st.cells[i]?).getD default) self := by
  by_cases hcr : cr = false
  · rw [cell_management_prologue, if_pos hcr] at hp
    simp at hp
  · have hcr' : cr = true := by
      cases cr
      · exact absurd rfl hcr
      · rfl
    rcases hf : find_cell_index st.cells id with _ | j
    · rw [cell_management_prologue, if_neg hcr, hf] at hp
      simp at hp
    · have hne : st.cells ≠ [] := by
        intro hnil
        rw [hnil] at hf
        simp [find_cell_index, find_cell_loop] at hf
      rw [cell_management_prologue, if_neg hcr, hf] at hp
      simp only [] at hp
      by_cases hj : j = 0
      · rw [if_pos hj] at hp
        simp at hp
      · rw [if_neg hj] at hp
        by_cases hg : (task = management_task.CELL_DESTROY ∧
            cell_reconfig_ok st.cells (some j) = false) ∨
            cell_shutdown_ok ((st.cells[j]?).getD default) = false
        · rw [if_pos hg] at hp
          simp at hp
        · rw [if_neg hg] at hp
          have hij : j = i := by
            simpa using hp
          subst hij
          rw [cell_management_prologue, if_neg hcr, hf]
          simp only []
          rw [if_neg hj, if_neg hg]
          exact ⟨hcr', hj, hne, rfl, rfl⟩

/-- On failure every CPU the prologue suspended it also resumed. -/
lemma prologue_paired (task : management_task) (st : HvState) (self : Nat)
    (cr : Bool) (id : Nat)
    (hp : (cell_management_prologue task st self cr id).2.1 = none) :
    suspend_paired (cell_management_prologue task st self cr id).2.2 := by
  by_cases hcr : cr = false
  · rw [cell_management_prologue, if_pos hcr]
    intro cpu h
    simp at h
  · rcases hf : find_cell_index st.cells id with _ | j
    · rw [cell_management_prologue, if_neg hcr, hf]
      exact suspend_paired_sus_res _ self
    · rw [cell_management_prologue, if_neg hcr, hf] at hp ⊢
      simp only [] at hp ⊢
      by_cases hj : j = 0
      · rw [if_pos hj]
        exact suspend_paired_sus_res _ self
      · rw [if_neg hj] at hp ⊢
        by_cases hg : (task = management_task.CELL_DESTROY ∧
            cell_reconfig_ok st.cells (some j) = false) ∨
            cell_shutdown_ok ((st.cells[j]?).getD default) = false
        · rw [if_pos hg]
          exact suspend_paired_sus_res _ self
        · rw [if_neg hg] at hp
          simp at hp

/-- A cleared CPU reads failed = false. -/
lemma clear_failed_list_not_mem :
    ∀ (l : List Nat) (f : Nat → Bool) (x : Nat), x ∉ l → clear_failed_list f l x = f x
  | [], _, _, _ => rfl
  | c :: rest, f, x, h => by
    have hx : x ∉ rest := fun hx => h (List.mem_cons_of_mem c hx)
    have hxc : ¬ x = c := fun he => h (he ▸ List.mem_cons_self c rest)
    simp [clear_failed_list, clear_failed_list_not_mem rest _ x hx, hxc]

/-- Every CPU in the cleared list reads failed = false afterwards. -/
lemma clear_failed_list_mem :
    ∀ (l : List Nat) (f : Nat → Bool) (x : Nat), x ∈ l → clear_failed_list f l x = false
  | [], _, _, h => absurd h (List.not_mem_nil _)
  | c :: rest, f, x, h => by
    by_cases hx : x ∈ rest
    · exact clear_failed_list_mem rest _ x hx
    · have hxc : x = c := by
        rcases List.mem_cons.mp h with h1 | h1
        · exact h1
        · exact absurd h1 hx
      subst hxc
      simp only [clear_failed_list]
      rw [clear_failed_list_not_mem rest _ x hx]
      simp

/-- C4: on an already loadable cell, cell_set_loadable succeeds, leaves the
cell list (hence the cell state and loadable flag) unchanged and makes no
arch_map_memory_region, arch_unmap_memory_region or arch_config_commit
call. -/
theorem cell_set_loadable_idempotent :
    ∀ (st : HvState) (self : Nat) (cr : Bool) (id : Nat) (mapErr : MemRegion → Int)
      (i : Nat),
      (cell_management_prologue management_task.CELL_SET_LOADABLE st self cr id).2.1 =
        some i →
      ((st.cells[i]?).getD default).loadable = true →
      (cell_set_loadable st self cr id mapErr).1 = 0 ∧
      (cell_set_loadable st self cr id mapErr).2.2.cells = st.cells ∧
      ∀ e ∈ (cell_set_loadable st self cr id mapErr).2.1, touches_mappings e = false := by
  intro st self cr id mapErr i hp hload
  have hfacts := prologue_some_facts _ st self cr id i hp
  simp only [cell_set_loadable]
  rw [hp]
  simp only []
  rw [if_pos hload]
  refine ⟨rfl, rfl, ?_⟩
  intro e he
  rcases List.mem_append.mp he with h1 | h1
  · rcases List.mem_append.mp h1 with h2 | h2
    · rw [hfacts.2.2.2.2] at h2
      rcases List.mem_append.mp h2 with h3 | h3 <;> exact touches_of_mem_suspend_events h3
    · simp only [List.mem_map] at h2
      obtain ⟨a, _, rfl⟩ := h2
      rfl
  · exact touches_of_mem_resume_events h1

/-- Witness for C4 on the sample state whose non root cell is loadable. -/
theorem cell_set_loadable_idempotent_witness :
    (cell_set_loadable stW 0 true 1 (fun _ => 0)).1 = 0 ∧
    (cell_set_loadable stW 0 true 1 (fun _ => 0)).2.2.cells = stW.cells :=
  have h := cell_set_loadable_idempotent stW 0 true 1 (fun _ => 0) 1 (by decide) (by decide)
  ⟨h.1, h.2.1⟩

/-- Set membership survives insertion of a bit into the bitmap list. -/
lemma mem_insertSorted (l : List Nat) (c x : Nat) (h : x ∈ l) : x ∈ insertSorted c l := by
  induction l with
  | nil => simp at h
  | cons a t ih =>
    simp only [insertSorted]
    split_ifs with h1 h2
    · exact List.mem_cons_of_mem _ h
    · exact h
    · rcases List.mem_cons.mp h with h3 | h3
      · exact h3 ▸ List.mem_cons_self a _
      · exact List.mem_cons_of_mem _ (ih h3)

/-- The CPU handback loop of cell_destroy_internal keeps the cell list shape:
the tail is untouched, the root keeps its id and only gains CPUs. -/
lemma destroy_cpu_updates_cons (l : List Nat) :
    ∀ (st : HvState) (r : Cell) (o : List Cell), st.cells = r :: o →
      ∃ r', (destroy_cpu_updates st l).cells = r' :: o ∧ r'.id = r.id ∧
        ∀ cpu, cpu ∈ r.cpus → cpu ∈ r'.cpus := by
  induction l with
  | nil => exact fun st r o h => ⟨r, h, rfl, fun _ hc => hc⟩
  | cons c rest ih =>
    intro st r o h
    simp only [destroy_cpu_updates, h]
    obtain ⟨r', h1, h2, h3⟩ := ih
      { st with
        cells := { r with cpus := insertSorted c r.cpus } :: o,
        percpu_failed := fun x => if x = c then false else st.percpu_failed x,
        percpu_cell := fun x => if x = c then 0 else st.percpu_cell x,
        percpu_stats := fun x => if x = c then (st.percpu_stats x).map (fun _ => 0)
                                 else st.percpu_stats x }
      { r with cpus := insertSorted c r.cpus } o rfl
    exact ⟨r', h1, h2, fun cpu hc => h3 cpu (mem_insertSorted _ c cpu hc)⟩

/-- The CPU handback loop does not change num_cells. -/
lemma destroy_cpu_updates_num (l : List Nat) :
    ∀ st : HvState, (destroy_cpu_updates st l).num_cells = st.num_cells := by
  induction l with
  | nil => exact fun _ => rfl
  | cons c rest ih => exact fun st => ih _

/-- Mapping the id over eraseIdx commutes. -/
lemma cells_map_id_eraseIdx :
    ∀ (l : List Cell) (n : Nat), (l.eraseIdx n).map Cell.id = (l.map Cell.id).eraseIdx n := by
  intro l
  induction l with
  | nil => intro n; rfl
  | cons a t ih =>
    intro n
    cases n with
    | zero => rfl
    | succ m => simp [List.eraseIdx_cons_succ, ih]

/-- C9: whenever the prologue succeeds for destroy, cell_destroy returns 0 for
every behaviour of arch_map_memory_region during the teardown remapping, the
target cell is unlinked from the cell list, num_cells is decremented and the
backing pages of the cell are freed. -/
theorem cell_destroy_returns_zero :
    ∀ (st : HvState) (self : Nat) (cr : Bool) (id : Nat) (mapErr : MemRegion → Int)
      (i : Nat),
      (cell_management_prologue management_task.CELL_DESTROY st self cr id).2.1 =
        some i →
      (cell_destroy st self cr id mapErr).1 = 0 ∧
      (cell_destroy st self cr id mapErr).2.2.cells.map Cell.id =
        (st.cells.map Cell.id).eraseIdx i ∧
      (cell_destroy st self cr id mapErr).2.2.num_cells = st.num_cells - 1 ∧
      Event.freePages ((st.cells[i]?).getD default).data_pages ∈
        (cell_destroy st self cr id mapErr).2.1 := by
  intro st self cr id mapErr i hp
  have hfacts := prologue_some_facts _ st self cr id i hp
  obtain ⟨r, o, hcells⟩ : ∃ r o, st.cells = r :: o := by
    cases hc : st.cells with
    | nil => exact absurd hc hfacts.2.2.1
    | cons a b => exact ⟨a, b, rfl⟩
  obtain ⟨j, hi⟩ : ∃ j, i = j + 1 := by
    cases i with
    | zero => exact absurd rfl hfacts.2.1
    | succ j => exact ⟨j, rfl⟩
  simp only [cell_destroy, cell_destroy_internal]
  rw [hp]
  simp only []
  obtain ⟨r', h1, h2, h3⟩ :=
    destroy_cpu_updates_cons ((st.cells[i]?).getD default).cpus st r o hcells
  refine ⟨by trivial, ?_, ?_, ?_⟩
  · rw [h1, hcells, hi, List.eraseIdx_cons_succ, List.map_cons, List.map_cons,
      List.eraseIdx_cons_succ, h2, cells_map_id_eraseIdx]
  · rw [destroy_cpu_updates_num]
  · exact List.mem_append.mpr (Or.inl (List.mem_append.mpr (Or.inr
      (List.mem_singleton.mpr rfl))))

/-- Witness for C9: destroying the sample cell 1 with an always failing
arch_map_memory_region still returns 0 and unlinks the cell. -/
theorem cell_destroy_returns_zero_witness :
    (cell_destroy stW 0 true 1 (fun _ => -1)).1 = 0 ∧
    (cell_destroy stW 0 true 1 (fun _ => -1)).2.2.cells.map Cell.id =
      (stW.cells.map Cell.id).eraseIdx 1 :=
  have h := cell_destroy_returns_zero stW 0 true 1 (fun _ => -1) 1 (by decide)
  ⟨h.1, h.2.1⟩

/-- C10: on every successful prologue, cell_set_loadable parks every CPU of
the target cell and clears its failed flag, also when the cell is already
loadable. -/
theorem cell_set_loadable_parks_all :
    ∀ (st : HvState) (self : Nat) (cr : Bool) (id : Nat) (mapErr : MemRegion → Int)
      (i : Nat),
      (cell_management_prologue management_task.CELL_SET_LOADABLE st self cr id).2.1 =
        some i →
      ∀ cpu ∈ ((st.cells[i]?).getD default).cpus,
        Event.park cpu ∈ (cell_set_loadable st self cr id mapErr).2.1 ∧
        (cell_set_loadable st self cr id mapErr).2.2.percpu_failed cpu = false := by
  intro st self cr id mapErr i hp cpu hcpu
  simp only [cell_set_loadable]
  rw [hp]
  simp only []
  have hpark : Event.park cpu ∈ ((st.cells[i]?).getD default).cpus.map Event.park :=
    List.mem_map.mpr ⟨cpu, hcpu, rfl⟩
  have hfail := clear_failed_list_mem ((st.cells[i]?).getD default).cpus
    st.percpu_failed cpu hcpu
  split_ifs with h1 h2
  · exact ⟨List.mem_append.mpr (Or.inl (List.mem_append.mpr (Or.inr hpark))), hfail⟩
  · exact ⟨List.mem_append.mpr (Or.inl (List.mem_append.mpr (Or.inl
      (List.mem_append.mpr (Or.inr hpark))))), hfail⟩
  · exact ⟨List.mem_append.mpr (Or.inl (List.mem_append.mpr (Or.inl
      (List.mem_append.mpr (Or.inl (List.mem_append.mpr (Or.inr hpark))))))), hfail⟩

/-- Witness for C10 on the sample state: CPU 2 of cell 1 is parked and its
failed flag cleared. -/
theorem cell_set_loadable_parks_all_witness :
    Event.park 2 ∈ (cell_set_loadable stW 0 true 1 (fun _ => 0)).2.1 ∧
    (cell_set_loadable stW 0 true 1 (fun _ => 0)).2.2.percpu_failed 2 = false :=
  cell_set_loadable_parks_all stW 0 true 1 (fun _ => 0) 1 (by decide) 2 (by decide)

/-- A suspend call touches no mapping. -/
lemma suspend_touches_false (cpu : Nat) : touches_mappings (Event.suspend cpu) = false := rfl

/-- The set_loadable remap loop emits only mapping events. -/
lemma set_loadable_remap_loop_touches (rm : List MemRegion) (me : MemRegion → Int) :
    ∀ l, ∀ e ∈ (set_loadable_remap_loop rm me l).2, touches_mappings e = true
  | [], e, he => by simp [set_loadable_remap_loop] at he
  | m :: rest, e, he => by
    simp only [set_loadable_remap_loop] at he
    split_ifs at he with h1 h2
    · simp only [List.mem_map] at he
      obtain ⟨a, _, rfl⟩ := he
      rfl
    · rcases List.mem_append.mp he with h3 | h3
      · simp only [List.mem_map] at h3
        obtain ⟨a, _, rfl⟩ := h3
        rfl
      · exact set_loadable_remap_loop_touches rm me rest e h3
    · exact set_loadable_remap_loop_touches rm me rest e he

/-- The cell_start unmap loop emits only mapping events. -/
lemma start_unmap_loop_touches (me : MemRegion → Int) :
    ∀ l, ∀ e ∈ (start_unmap_loop me l).2, touches_mappings e = true
  | [], e, he => by simp [start_unmap_loop] at he
  | m :: rest, e, he => by
    simp only [start_unmap_loop] at he
    split_ifs at he with h1 h2
    · rw [List.mem_singleton] at he
      subst he
      rfl
    · rcases List.mem_cons.mp he with h3 | h3
      · subst h3
        rfl
      · exact start_unmap_loop_touches me rest e h3
    · exact start_unmap_loop_touches me rest e he

/-- The cell_create region loop emits only mapping events. -/
lemma create_region_loop_touches (ue me : MemRegion → Int) (idx : Nat) :
    ∀ l, ∀ e ∈ (create_region_loop ue me idx l).2, touches_mappings e = true
  | [], e, he => by simp [create_region_loop] at he
  | m :: rest, e, he => by
    simp only [create_region_loop] at he
    split_ifs at he with h1 h2 h3 h4
    · rw [List.mem_singleton] at he
      subst he
      rfl
    · rcases List.mem_cons.mp he with h5 | h5
      · subst h5
        rfl
      · rw [List.mem_singleton] at h5
        subst h5
        rfl
    · rcases List.mem_cons.mp he with h5 | h5
      · subst h5
        rfl
      · rcases List.mem_cons.mp h5 with h6 | h6
        · subst h6
          rfl
        · exact create_region_loop_touches ue me idx rest e h6
    · rw [List.mem_singleton] at he
      subst he
      rfl
    · rcases List.mem_cons.mp he with h5 | h5
      · subst h5
        rfl
      · exact create_region_loop_touches ue me idx rest e h5

/-- The cell_destroy_internal region loop emits only mapping events. -/
lemma destroy_region_loop_touches (rm : List MemRegion) (me : MemRegion → Int) (tag : Nat) :
    ∀ l, ∀ e ∈ destroy_region_loop rm me tag l, touches_mappings e = true
  | [], e, he => by simp [destroy_region_loop] at he
  | m :: rest, e, he => by
    simp only [destroy_region_loop] at he
    rcases List.mem_cons.mp he with h1 | h1
    · subst h1
      rfl
    · rcases List.mem_append.mp h1 with h2 | h2
      · split_ifs at h2
        · simp only [List.mem_map] at h2
          obtain ⟨a, _, rfl⟩ := h2
          rfl
        · simp at h2
      · exact destroy_region_loop_touches rm me tag rest e h2

/-- With an error free arch_unmap_memory_region the cell_start unmap loop
reports no error. -/
lemma start_unmap_loop_zero (me : MemRegion → Int) (hz : ∀ m, me m = 0) :
    ∀ l, (start_unmap_loop me l).1 = 0
  | [] => rfl
  | m :: rest => by
    simp only [start_unmap_loop]
    split_ifs with h1 h2
    · exact absurd (hz _) h2
    · exact start_unmap_loop_zero me hz rest
    · exact start_unmap_loop_zero me hz rest

/-- The CPU assignment loop of cell_create keeps the cell list shape: the
tail is untouched and the root keeps every CPU not being transferred. -/
lemma create_cpu_assign_cons (l : List Nat) (idx : Nat) :
    ∀ (st : HvState) (r : Cell) (o : List Cell), st.cells = r :: o →
      ∃ r', (create_cpu_assign idx st l).cells = r' :: o ∧ r'.id = r.id ∧
        ∀ cpu, cpu ∈ r.cpus → cpu ∉ l → cpu ∈ r'.cpus := by
  induction l with
  | nil => exact fun st r o h => ⟨r, h, rfl, fun _ hc _ => hc⟩
  | cons c rest ih =>
    intro st r o h
    simp only [create_cpu_assign, h]
    obtain ⟨r', h1, h2, h3⟩ := ih
      { st with
        cells := { r with cpus := r.cpus.erase c } :: o,
        percpu_cell := fun x => if x = c then idx else st.percpu_cell x,
        percpu_stats := fun x => if x = c then (st.percpu_stats x).map (fun _ => 0)
                                 else st.percpu_stats x }
      { r with cpus := r.cpus.erase c } o rfl
    refine ⟨r', h1, h2, fun cpu hc hnl => ?_⟩
    have hcc : cpu ≠ c := fun he => hnl (he ▸ List.mem_cons_self c rest)
    exact h3 cpu ((List.mem_erase_of_ne hcc).mpr hc)
      (fun hx => hnl (List.mem_cons_of_mem c hx))

/-- The default cell owns no CPU. -/
lemma default_cell_cpus : (default : Cell).cpus = [] := rfl

/-- A suspend trace framed by a resume of the same cell, with a middle part
free of suspend calls, is balanced. -/
lemma suspend_paired_sus_mid_res (c : Cell) (self : Nat) (mid : List Event)
    (hmid : ∀ cpu, Event.suspend cpu ∉ mid) :
    suspend_paired ((suspend_events c self ++ mid) ++ resume_events c self) := by
  intro cpu h
  rcases List.mem_append.mp h with h1 | h1
  · rcases List.mem_append.mp h1 with h2 | h2
    · obtain ⟨hm, hs⟩ := suspend_mem_suspend_events.mp h2
      exact Or.inl (List.mem_append.mpr (Or.inr (resume_mem_resume_events hm hs)))
    · exact absurd h2 (hmid cpu)
  · exact absurd h1 suspend_not_mem_resume_events

/-- Every CPU cell_set_loadable suspends is handed a resume or park call. -/
lemma suspend_paired_cell_set_loadable (st : HvState) (self : Nat) (cr : Bool)
    (id : Nat) (mapErr : MemRegion → Int) :
    suspend_paired (cell_set_loadable st self cr id mapErr).2.1 := by
  rcases hp : (cell_management_prologue management_task.CELL_SET_LOADABLE st self cr id).2.1
    with _ | i
  · simp only [cell_set_loadable]
    rw [hp]
    exact prologue_paired _ st self cr id hp
  · have hfacts := prologue_some_facts _ st self cr id i hp
    have hhandle : ∀ cpu, Event.suspend cpu ∈
        (cell_management_prologue management_task.CELL_SET_LOADABLE st self cr id).2.2 →
        (cpu ∈ (st.cells.headD default).cpus ∧ cpu ≠ self) ∨
          cpu ∈ ((st.cells[i]?).getD default).cpus := by
      intro cpu h
      rw [hfacts.2.2.2.2] at h
      rcases List.mem_append.mp h with hC | hC
      · exact Or.inl (suspend_mem_suspend_events.mp hC)
      · exact Or.inr (suspend_mem_suspend_events.mp hC).1
    simp only [cell_set_loadable]
    rw [hp]
    simp only []
    split_ifs with h1 h2
    · intro cpu hsus
      simp only [List.mem_append] at hsus
      rcases hsus with (h | h) | h
      · rcases hhandle cpu h with ⟨hm, hs⟩ | hm
        · exact Or.inl (by
            simp only [List.mem_append]
            exact Or.inr (resume_mem_resume_events hm hs))
        · exact Or.inr (Or.inl (by
            simp only [List.mem_append]
            exact Or.inl (Or.inr (List.mem_map.mpr ⟨cpu, hm, rfl⟩))))
      · simp at h
      · exact absurd h suspend_not_mem_resume_events
    · intro cpu hsus
      simp only [List.mem_append] at hsus
      rcases hsus with ((h | h) | h) | h
      · rcases hhandle cpu h with ⟨hm, hs⟩ | hm
        · exact Or.inl (by
            simp only [List.mem_append]
            exact Or.inr (resume_mem_resume_events hm hs))
        · exact Or.inr (Or.inl (by
            simp only [List.mem_append]
            exact Or.inl (Or.inl (Or.inr (List.mem_map.mpr ⟨cpu, hm, rfl⟩)))))
      · simp at h
      · have ht := set_loadable_remap_loop_touches _ _ _ _ h
        rw [suspend_touches_false] at ht
        exact absurd ht (by decide)
      · exact absurd h suspend_not_mem_resume_events
    · intro cpu hsus
      simp only [List.mem_append] at hsus
      rcases hsus with (((h | h) | h) | h) | h
      · rcases hhandle cpu h with ⟨hm, hs⟩ | hm
        · exact Or.inl (by
            simp only [List.mem_append]
            exact Or.inr (resume_mem_resume_events hm hs))
        · exact Or.inr (Or.inl (by
            simp only [List.mem_append]
            exact Or.inl (Or.inl (Or.inl (Or.inr (List.mem_map.mpr ⟨cpu, hm, rfl⟩))))))
      · simp at h
      · have ht := set_loadable_remap_loop_touches _ _ _ _ h
        rw [suspend_touches_false] at ht
        exact absurd ht (by decide)
      · simp at h
      · exact absurd h suspend_not_mem_resume_events

/-- With an error free unmap, every CPU cell_start suspends is handed a
resume or reset call. -/
lemma suspend_paired_cell_start (st : HvState) (self : Nat) (cr : Bool) (id : Nat)
    (unmapErr : MemRegion → Int) (hz : ∀ m, unmapErr m = 0) :
    suspend_paired (cell_start st self cr id unmapErr).2.1 := by
  rcases hp : (cell_management_prologue management_task.CELL_START st self cr id).2.1
    with _ | i
  · simp only [cell_start]
    rw [hp]
    exact prologue_paired _ st self cr id hp
  · have hfacts := prologue_some_facts _ st self cr id i hp
    have hhandle : ∀ cpu, Event.suspend cpu ∈
        (cell_management_prologue management_task.CELL_START st self cr id).2.2 →
        (cpu ∈ (st.cells.headD default).cpus ∧ cpu ≠ self) ∨
          cpu ∈ ((st.cells[i]?).getD default).cpus := by
      intro cpu h
      rw [hfacts.2.2.2.2] at h
      rcases List.mem_append.mp h with hC | hC
      · exact Or.inl (suspend_mem_suspend_events.mp hC)
      · exact Or.inr (suspend_mem_suspend_events.mp hC).1
    simp only [cell_start]
    rw [hp]
    simp only []
    by_cases hL : ((st.cells[i]?).getD default).loadable = true
    · simp only [if_pos hL]
      rw [if_neg (fun hne => hne (start_unmap_loop_zero unmapErr hz _))]
      intro cpu hsus
      simp only [List.mem_append] at hsus
      rcases hsus with (((h | h) | h) | h) | h
      · rcases hhandle cpu h with ⟨hm, hs⟩ | hm
        · exact Or.inl (by
            simp only [List.mem_append]
            exact Or.inr (resume_mem_resume_events hm hs))
        · exact Or.inr (Or.inr (by
            simp only [List.mem_append]
            exact Or.inl (Or.inr (List.mem_map.mpr ⟨cpu, hm, rfl⟩))))
      · have ht := start_unmap_loop_touches unmapErr _ _ h
        rw [suspend_touches_false] at ht
        exact absurd ht (by decide)
      · simp at h
      · simp at h
      · exact absurd h suspend_not_mem_resume_events
    · simp only [if_neg hL]
      rw [if_neg (fun hne : ((0 : Int), ([] : List Event)).1 ≠ 0 => hne rfl)]
      intro cpu hsus
      simp only [List.mem_append] at hsus
      rcases hsus with (((h | h) | h) | h) | h
      · rcases hhandle cpu h with ⟨hm, hs⟩ | hm
        · exact Or.inl (by
            simp only [List.mem_append]
            exact Or.inr (resume_mem_resume_events hm hs))
        · exact Or.inr (Or.inr (by
            simp only [List.mem_append]
            exact Or.inl (Or.inr (List.mem_map.mpr ⟨cpu, hm, rfl⟩))))
      · simp at h
      · simp at h
      · simp at h
      · exact absurd h suspend_not_mem_resume_events

/-- Every CPU cell_destroy suspends is handed a resume or park call. -/
lemma suspend_paired_cell_destroy (st : HvState) (self : Nat) (cr : Bool) (id : Nat)
    (mapErr : MemRegion → Int) :
    suspend_paired (cell_destroy st self cr id mapErr).2.1 := by
  rcases hp : (cell_management_prologue management_task.CELL_DESTROY st self cr id).2.1
    with _ | i
  · simp only [cell_destroy]
    rw [hp]
    exact prologue_paired _ st self cr id hp
  · have hfacts := prologue_some_facts _ st self cr id i hp
    obtain ⟨r, o, hcells⟩ : ∃ r o, st.cells = r :: o := by
      cases hc : st.cells with
      | nil => exact absurd hc hfacts.2.2.1
      | cons a b => exact ⟨a, b, rfl⟩
    obtain ⟨j, hi⟩ : ∃ j, i = j + 1 := by
      cases i with
      | zero => exact absurd rfl hfacts.2.1
      | succ j => exact ⟨j, rfl⟩
    obtain ⟨r', h1, h2, h3⟩ :=
      destroy_cpu_updates_cons ((st.cells[i]?).getD default).cpus st r o hcells
    have hhandle : ∀ cpu, Event.suspend cpu ∈
        (cell_management_prologue management_task.CELL_DESTROY st self cr id).2.2 →
        (cpu ∈ r.cpus ∧ cpu ≠ self) ∨ cpu ∈ ((st.cells[i]?).getD default).cpus := by
      intro cpu h
      rw [hfacts.2.2.2.2] at h
      rcases List.mem_append.mp h with hC | hC
      · obtain ⟨hm, hs⟩ := suspend_mem_suspend_events.mp hC
        rw [hcells] at hm
        exact Or.inl ⟨hm, hs⟩
      · exact Or.inr (suspend_mem_suspend_events.mp hC).1
    simp only [cell_destroy, cell_destroy_internal]
    rw [hp]
    simp only []
    have hhead : (((destroy_cpu_updates st ((st.cells[i]?).getD default).cpus).cells.eraseIdx
        i).headD default) = r' := by
      rw [h1, hi, List.eraseIdx_cons_succ]
      rfl
    rw [hhead]
    intro cpu hsus
    simp only [List.mem_append] at hsus
    rcases hsus with ((h | ((h | h) | h)) | h) | h
    · rcases hhandle cpu h with ⟨hm, hs⟩ | hm
      · exact Or.inl (by
          simp only [List.mem_append]
          exact Or.inr (resume_mem_resume_events (h3 cpu hm) hs))
      · exact Or.inr (Or.inl (by
          simp only [List.mem_append]
          exact Or.inl (Or.inl (Or.inr (Or.inl (Or.inl
            (List.mem_map.mpr ⟨cpu, hm, rfl⟩)))))))
    · simp at h
    · have ht := destroy_region_loop_touches _ _ _ _ _ h
      rw [suspend_touches_false] at ht
      exact absurd ht (by decide)
    · simp at h
    · simp at h
    · exact absurd h suspend_not_mem_resume_events

/-- Every CPU cell_create suspends is handed a resume or park call, on every
path including the rollback ladder. -/
lemma suspend_paired_cell_create (st : HvState) (self : Nat) (cr : Bool)
    (orc : CreateOracle) :
    suspend_paired (cell_create st self cr orc).2.1 := by
  simp only [cell_create, cell_destroy_internal]
  by_cases hcr : cr = false
  · rw [if_pos hcr]
    intro cpu h
    simp at h
  · rw [if_neg hcr]
    by_cases h1 : cell_reconfig_ok st.cells none = false
    · rw [if_pos h1]
      exact suspend_paired_sus_res _ self
    rw [if_neg h1]
    by_cases h2 : orc.cfgMapOk = false
    · rw [if_pos h2]
      exact suspend_paired_sus_res _ self
    rw [if_neg h2]
    by_cases h3 : (st.cells.any fun c => c.name == orc.cfg.name) = true
    · rw [if_pos h3]
      exact suspend_paired_sus_res _ self
    rw [if_neg h3]
    by_cases h4 : orc.cfgTooBig = true
    · rw [if_pos h4]
      exact suspend_paired_sus_res _ self
    rw [if_neg h4]
    by_cases h5 : orc.cfgMap2Ok = false
    · rw [if_pos h5]
      exact suspend_paired_sus_res _ self
    rw [if_neg h5]
    by_cases h6 : check_mem_regions orc.cfg.mems ≠ 0
    · rw [if_pos h6]
      exact suspend_paired_sus_res _ self
    rw [if_neg h6]
    by_cases h7 : orc.cellAllocOk = false
    · rw [if_pos h7]
      exact suspend_paired_sus_res _ self
    rw [if_neg h7]
    by_cases h8 : (cell_init st.cells orc.cfg orc.cpuSetAllocOk).1 ≠ 0
    · rw [if_pos h8]
      exact suspend_paired_sus_mid_res _ self _ (fun cpu => by simp)
    rw [if_neg h8]
    by_cases h9 : (new_cell_of_config orc
        (cell_init st.cells orc.cfg orc.cpuSetAllocOk).2).cpus.contains self = true
    · rw [if_pos h9]
      exact suspend_paired_sus_mid_res _ self _ (fun cpu => by simp)
    rw [if_neg h9]
    by_cases h10 : ((new_cell_of_config orc
        (cell_init st.cells orc.cfg orc.cpuSetAllocOk).2).cpus.all
          fun c => (st.cells.headD default).cpus.contains c) = false
    · rw [if_pos h10]
      exact suspend_paired_sus_mid_res _ self _ (fun cpu => by simp)
    rw [if_neg h10]
    by_cases h11 : orc.archCreateErr ≠ 0
    · rw [if_pos h11]
      exact suspend_paired_sus_mid_res _ self _ (fun cpu => by simp)
    rw [if_neg h11]
    by_cases h12 : (create_region_loop orc.unmapErr orc.mapErr st.cells.length
        (new_cell_of_config orc (cell_init st.cells orc.cfg orc.cpuSetAllocOk).2).mems).1 ≠ 0
    case pos =>
      rw [if_pos h12]
      -- rollback path after the region loop failed
      intro cpu hsus
      simp only [List.append_eq, List.mem_append] at hsus
      rcases hsus with ((((h | h) | h) | ((h | h) | h)) | h) | h
      · -- the root suspension
        obtain ⟨hm, hs⟩ := suspend_mem_suspend_events.mp h
        by_cases hnew : cpu ∈ (new_cell_of_config orc (cell_init st.cells orc.cfg
            orc.cpuSetAllocOk).2).cpus
        · exact Or.inr (Or.inl (by
            simp only [List.append_eq, List.mem_append]
            exact Or.inl (Or.inl (Or.inl (Or.inl (Or.inr
              (List.mem_map.mpr ⟨cpu, hnew, rfl⟩)))))))
        · obtain ⟨r, o, hc⟩ : ∃ r o, st.cells = r :: o := by
            cases hq : st.cells with
            | nil =>
              rw [hq] at hm
              simp [default_cell_cpus] at hm
            | cons a b => exact ⟨a, b, rfl⟩
          obtain ⟨r1, hc1, _, hc3⟩ := create_cpu_assign_cons _ st.cells.length st r o hc
          obtain ⟨r2, hd1, _, hd3⟩ := destroy_cpu_updates_cons _ _ r1 o hc1
          have hm1 : cpu ∈ r1.cpus := by
            rw [hc] at hm
            exact hc3 cpu hm hnew
          refine Or.inl (by
            simp only [List.append_eq, List.mem_append]
            refine Or.inr ?_
            rw [hd1]
            simp only [List.headD_cons]
            exact resume_mem_resume_events (hd3 cpu hm1) hs)
      · simp at h
      · have ht := create_region_loop_touches _ _ _ _ _ h
        rw [suspend_touches_false] at ht
        exact absurd ht (by decide)
      · simp at h
      · have ht := destroy_region_loop_touches _ _ _ _ _ h
        rw [suspend_touches_false] at ht
        exact absurd ht (by decide)
      · simp at h
      · simp at h
      · exact absurd h suspend_not_mem_resume_events
    case neg =>
      rw [if_neg h12]
      -- success path
      intro cpu hsus
      simp only [List.mem_append] at hsus
      rcases hsus with (((h | h) | h) | h) | h
      · obtain ⟨hm, hs⟩ := suspend_mem_suspend_events.mp h
        by_cases hnew : cpu ∈ (new_cell_of_config orc (cell_init st.cells orc.cfg
            orc.cpuSetAllocOk).2).cpus
        · exact Or.inr (Or.inl (by
            simp only [List.mem_append]
            exact Or.inl (Or.inl (Or.inl (Or.inr
              (List.mem_map.mpr ⟨cpu, hnew, rfl⟩))))))
        · obtain ⟨r, o, hc⟩ : ∃ r o, st.cells = r :: o := by
            cases hq : st.cells with
            | nil =>
              rw [hq] at hm
              simp [default_cell_cpus] at hm
            | cons a b => exact ⟨a, b, rfl⟩
          obtain ⟨r1, hc1, _, hc3⟩ := create_cpu_assign_cons _ st.cells.length st r o hc
          have hm1 : cpu ∈ r1.cpus := by
            rw [hc] at hm
            exact hc3 cpu hm hnew
          refine Or.inl (by
            simp only [List.append_eq, List.mem_append]
            refine Or.inr ?_
            rw [hc1]
            simp only [List.cons_append, List.headD_cons]
            exact resume_mem_resume_events hm1 hs)
      · simp at h
      · have ht := create_region_loop_touches _ _ _ _ _ h
        rw [suspend_touches_false] at ht
        exact absurd ht (by decide)
      · simp at h
      · exact absurd h suspend_not_mem_resume_events

/-- C2 (amended): in the lifecycle operations, each CPU on which
arch_suspend_cpu was invoked is later handed to arch_resume_cpu,
arch_park_cpu or arch_reset_cpu before the operation returns, on all paths
including error paths, unconditionally for set_loadable, destroy and create,
and for start on all paths on which no unmap_from_root_cell call fails; on a
cell_start unmap failure the suspended target cell CPUs receive no further
call (counterexample), and target cell CPUs are in general parked or reset
rather than resumed, so the original claim that every suspended CPU receives
arch_resume_cpu, with target resumes in reverse order, does not hold. -/
theorem lifecycle_suspend_handoff :
    ∀ (st : HvState) (self : Nat) (cr : Bool) (id : Nat)
      (mapErr mapErr2 unmapErr : MemRegion → Int) (orc : CreateOracle),
      suspend_paired (cell_set_loadable st self cr id mapErr).2.1 ∧
      suspend_paired (cell_destroy st self cr id mapErr2).2.1 ∧
      ((∀ m, unmapErr m = 0) →
        suspend_paired (cell_start st self cr id unmapErr).2.1) ∧
      suspend_paired (cell_create st self cr orc).2.1 :=
  fun st self cr id mapErr mapErr2 unmapErr orc =>
    ⟨suspend_paired_cell_set_loadable st self cr id mapErr,
     suspend_paired_cell_destroy st self cr id mapErr2,
     fun hz => suspend_paired_cell_start st self cr id unmapErr hz,
     suspend_paired_cell_create st self cr orc⟩

/-- Witness for C2 on the sample state, with error free architecture calls. -/
theorem lifecycle_suspend_handoff_witness :
    suspend_paired (cell_start stW 0 true 1 (fun _ => 0)).2.1 :=
  (lifecycle_suspend_handoff stW 0 true 1 (fun _ => 0) (fun _ => 0) (fun _ => 0)
      default).2.2.1 (fun _ => rfl)

/-- C2 counterexample: on the sample state, cell_start on the loadable cell 1
with a failing unmap_from_root_cell suspends CPU 2 of the target cell and
then returns without invoking arch_resume_cpu (or any other release call) on
it, refuting the claim that every suspended CPU is resumed on all paths. -/
theorem suspend_without_resume_cex :
    Event.suspend 2 ∈ (cell_start stW 0 true 1 (fun _ => -1)).2.1 ∧
    Event.resume 2 ∉ (cell_start stW 0 true 1 (fun _ => -1)).2.1 ∧
    Event.park 2 ∉ (cell_start stW 0 true 1 (fun _ => -1)).2.1 ∧
    Event.reset 2 ∉ (cell_start stW 0 true 1 (fun _ => -1)).2.1 := by decide

end Jailhouse
